import Mathlib

/-!
Magic Leap SDK samples: event log, system-event watchers and frame-sequence tracking.

A shallow embedding of the bookkeeping logic of the two sample applications

* `system_notifications/app/src/main/cpp/main.cpp` (`SystemNotificationsApp`), and
* `world_camera/app/src/main/cpp/main.cpp` (`WorldCameraApp`),

followed by theorems about it.  Member variables keep their C++ names.  Device
probes (battery level, head-tracking state, camera frames) are inputs of the
functions that consume them; rendering, GUI drawing and handle management are
not part of the model.
-/

namespace SystemNotifications

/-! ## `SystemNotificationsApp` -/

/-- The `#define SYS_NUM_EVENTS 10` of the sample. -/
def SYS_NUM_EVENTS : Nat := 10

/-- `SystemNotificationsApp::AddEvent` on the `events_` vector: when the size is
greater than `SYS_NUM_EVENTS` the first element is erased, then the event is
pushed at the back. -/
def AddEvent (event : String) (events_ : List String) : List String :=
  let events_ := if events_.length > SYS_NUM_EVENTS then events_.tail else events_
  events_ ++ [event]

/-- A run of `AddEvent` calls, in program order. -/
def AddEvents (events_ : List String) (calls : List String) : List String :=
  calls.foldl (fun log event => AddEvent event log) events_

/-- The constants of `ml_head_tracking.h` used by the sample.  The header is not
part of the sources, so the functions below take them as a parameter. -/
structure MLHeadTrackingConstants where
  MLHeadTrackingErrorFlag_None : Nat
  MLHeadTrackingErrorFlag_Unknown : Nat
  MLHeadTrackingErrorFlag_NotEnoughFeatures : Nat
  MLHeadTrackingErrorFlag_LowLight : Nat
  MLHeadTrackingErrorFlag_ExcessiveMotion : Nat
  MLHeadTrackingError_None : Nat
  deriving DecidableEq, Repr

/-- Modelled from the spec: the values of the absent header `ml_head_tracking.h`,
with the four error flags as the single bits 0 to 3 (Unknown, NotEnoughFeatures,
LowLight, ExcessiveMotion) and both "none" constants equal to zero. -/
def ml_head_tracking_h : MLHeadTrackingConstants where
  MLHeadTrackingErrorFlag_None := 0
  MLHeadTrackingErrorFlag_Unknown := 1
  MLHeadTrackingErrorFlag_NotEnoughFeatures := 2
  MLHeadTrackingErrorFlag_LowLight := 4
  MLHeadTrackingErrorFlag_ExcessiveMotion := 8
  MLHeadTrackingError_None := 0

/-- The values one call of `CheckSystemEvents` obtains from the device probes.
The three floating-point quantities enter only through the comparisons the
function makes on them, so each comparison result is an input of its own. -/
structure SystemReadings where
  IsNetworkConnected : Bool
  IsInternetAvailable : Bool
  GetComputePackBatteryLevel : Int
  IsControllerPresent : Bool
  GetControllerBatteryLevel : Int
  /-- Value of `available_space_ratio_ <= 0.1`. -/
  space_ratio_le : Bool
  /-- Value of `available_space_ratio_ > 0.1`. -/
  space_ratio_gt : Bool
  /-- Value of `audio_volume >= 75.0`. -/
  audio_volume_ge : Bool
  /-- Value of `audio_volume < 75.0`. -/
  audio_volume_lt : Bool
  /-- Value of `compute_pack_battery_temperature_ >= 40.0`. -/
  temperature_ge : Bool
  /-- Value of `compute_pack_battery_temperature_ < 40.0`. -/
  temperature_lt : Bool
  /-- The `error` field of the head-tracking state, a `uint32_t`. -/
  head_tracking_error : Nat
  GetLastTrimLevel : Int
  deriving DecidableEq, Repr

/-- The enumeration `MLPowerManagerPowerState` of `ml_power_manager.h`, as the
integer a variable of the type holds, so that values outside the enumerators
are covered. -/
abbrev MLPowerManagerPowerState := Int

/-- The enumerator `MLPowerManagerPowerState_None`. -/
def MLPowerManagerPowerState_None : MLPowerManagerPowerState := 0

/-- The enumerator `MLPowerManagerPowerState_Normal`. -/
def MLPowerManagerPowerState_Normal : MLPowerManagerPowerState := 1

/-- The enumerator `MLPowerManagerPowerState_DisabledWhileCharging`. -/
def MLPowerManagerPowerState_DisabledWhileCharging : MLPowerManagerPowerState := 2

/-- The enumerator `MLPowerManagerPowerState_Standby`. -/
def MLPowerManagerPowerState_Standby : MLPowerManagerPowerState := 3

/-- The enumerator `MLPowerManagerPowerState_Sleep`. -/
def MLPowerManagerPowerState_Sleep : MLPowerManagerPowerState := 4

/-- The enumerator `MLPowerManagerPowerState_Ensure32Bits`. -/
def MLPowerManagerPowerState_Ensure32Bits : MLPowerManagerPowerState := 0x7FFFFFFF

/-- The enumeration `MLPowerManagerConnectionState` of `ml_power_manager.h`, as
the integer a variable of the type holds. -/
abbrev MLPowerManagerConnectionState := Int

/-- The enumerator `MLPowerManagerConnectionState_Connected`. -/
def MLPowerManagerConnectionState_Connected : MLPowerManagerConnectionState := 0

/-- The enumerator `MLPowerManagerConnectionState_Disconnected`. -/
def MLPowerManagerConnectionState_Disconnected : MLPowerManagerConnectionState := 1

/-- The enumeration `MLPowerManagerPropertyType` of `ml_power_manager.h`, as the
integer a variable of the type holds. -/
abbrev MLPowerManagerPropertyType := Int

/-- The enumerator `MLPowerManagerPropertyType_ConnectionState`. -/
def MLPowerManagerPropertyType_ConnectionState : MLPowerManagerPropertyType := 3

/-- The struct `MLPowerManagerComponentProperty`: the property type and the
union read through its member `connection_state`. -/
structure MLPowerManagerComponentProperty where
  property_type : MLPowerManagerPropertyType
  connection_state : MLPowerManagerConnectionState
  deriving DecidableEq, Repr

/-- The member variables of `SystemNotificationsApp` that `CheckSystemEvents`,
`AddEvent` and the controller callbacks read or write. -/
structure SystemNotificationsApp where
  compute_critical_ : Bool
  compute_pack_battery_level_ : Int
  compute_pack_battery_temperature_warning_ : Bool
  controller_battery_level_ : Int
  controller_critical_ : Bool
  controller_connection_state_ : MLPowerManagerConnectionState
  controller_power_state_ : MLPowerManagerPowerState
  events_ : List String
  head_tracker_error_ : Nat
  internet_connection_ : Bool
  network_connection_ : Bool
  space_warning_ : Bool
  memory_trim_level_ : Int
  volume_warning_ : Bool
  deriving DecidableEq, Repr

/-- The member initialisers of the constructor.  `memory_trim_level_` has no
initialiser in the source and is a parameter here. -/
def SystemNotificationsApp.new (K : MLHeadTrackingConstants) (memory_trim_level_ : Int) :
    SystemNotificationsApp where
  compute_critical_ := false
  compute_pack_battery_level_ := 0
  compute_pack_battery_temperature_warning_ := false
  controller_battery_level_ := 0
  controller_critical_ := false
  controller_connection_state_ := MLPowerManagerConnectionState_Connected
  controller_power_state_ := MLPowerManagerPowerState_Normal
  events_ := []
  head_tracker_error_ := K.MLHeadTrackingErrorFlag_None
  internet_connection_ := false
  network_connection_ := false
  space_warning_ := false
  memory_trim_level_ := memory_trim_level_
  volume_warning_ := false

/-- Message of the compute-pack battery watcher. -/
def computeCriticalMsg : String := "Compute Pack Battery Critically Low (less than %5).\n"

/-- Message of the low-light flag. -/
def lowLightMsg : String := "Head tracking lost due to low light conditions.\n"

/-- Message of the not-enough-features flag. -/
def notEnoughFeaturesMsg : String := "Head tracking lost because there are not enough features.\n"

/-- Message of the excessive-motion flag. -/
def excessiveMotionMsg : String := "Head tracking lost because of excessive motion.\n"

/-- Message of the unknown-error flag. -/
def unknownErrorMsg : String := "Head tracking lost due to unknown error.\n"

/-- Message of the all-clear value. -/
def restoredMsg : String := "Head tracking restored.\n"

/-- The network block of `CheckSystemEvents`: the `AddEvent` calls it makes. -/
def networkEvents (app : SystemNotificationsApp) (r : SystemReadings) : List String :=
  if app.network_connection_ != r.IsNetworkConnected then
    if r.IsNetworkConnected then ["Network Connected.\n"] else ["Network Disconnected.\n"]
  else []

/-- The internet block of `CheckSystemEvents`: the `AddEvent` calls it makes. -/
def internetEvents (app : SystemNotificationsApp) (r : SystemReadings) : List String :=
  if app.internet_connection_ != r.IsInternetAvailable then
    if r.IsInternetAvailable then ["Internet Connected.\n"] else ["Internet Disconnected.\n"]
  else []

/-- The compute-pack battery block of `CheckSystemEvents`: the `AddEvent` calls
it makes, given the flag `compute_critical_` on entry and the level read. -/
def computeBatteryEvents (compute_critical_ : Bool) (level : Int) : List String :=
  if level ≤ 5 && !compute_critical_ then [computeCriticalMsg] else []

/-- The compute-pack battery block of `CheckSystemEvents`: the value of
`compute_critical_` on exit.  The first `if` sets the flag together with the
event, the second clears it when the level is above 5. -/
def computeBatteryFlag (compute_critical_ : Bool) (level : Int) : Bool :=
  let compute_critical_ := if level ≤ 5 && !compute_critical_ then true else compute_critical_
  if compute_critical_ && decide (level > 5) then false else compute_critical_

/-- The controller battery block; it runs only when a controller is present. -/
def controllerBatteryEvents (app : SystemNotificationsApp) (r : SystemReadings) : List String :=
  if r.IsControllerPresent then
    if r.GetControllerBatteryLevel ≤ 5 && !app.controller_critical_ then
      ["Controller Battery Critically Low (less than %5).\n"] else []
  else []

/-- The flag `controller_critical_` after the controller battery block. -/
def controllerBatteryFlag (app : SystemNotificationsApp) (r : SystemReadings) : Bool :=
  if r.IsControllerPresent then
    let c := if r.GetControllerBatteryLevel ≤ 5 && !app.controller_critical_ then true
             else app.controller_critical_
    if c && decide (r.GetControllerBatteryLevel > 5) then false else c
  else app.controller_critical_

/-- Events of a warning block with one enter message: taken when the entry
comparison holds and the warning flag is clear. -/
def warningEvents (flag enter : Bool) (msg : String) : List String :=
  if enter && !flag then [msg] else []

/-- The flag of a warning block on exit: set with the event, then cleared when
the exit comparison holds. -/
def warningFlag (flag enter leave : Bool) : Bool :=
  let flag := if enter && !flag then true else flag
  if flag && leave then false else flag

/-- The flag messages of the head-tracking block, in the order of the four
`if` statements of the source: LowLight, NotEnoughFeatures, ExcessiveMotion,
Unknown.  They are evaluated on the new reading `cur`, inside the test
`previous_head_tracker_error != head_tracker_error_`. -/
def headTrackingBitEvents (K : MLHeadTrackingConstants) (prev cur : Nat) : List String :=
  if prev != cur then
    (if cur &&& K.MLHeadTrackingErrorFlag_LowLight != 0 then [lowLightMsg] else []) ++
    (if cur &&& K.MLHeadTrackingErrorFlag_NotEnoughFeatures != 0 then [notEnoughFeaturesMsg]
      else []) ++
    (if cur &&& K.MLHeadTrackingErrorFlag_ExcessiveMotion != 0 then [excessiveMotionMsg]
      else []) ++
    (if cur &&& K.MLHeadTrackingErrorFlag_Unknown != 0 then [unknownErrorMsg] else [])
  else []

/-- The last `if` of the head-tracking block: the recovery message. -/
def headTrackingRestoredEvents (K : MLHeadTrackingConstants) (prev cur : Nat) : List String :=
  if prev != cur then
    (if cur == K.MLHeadTrackingError_None then [restoredMsg] else [])
  else []

/-- The head-tracking block of `CheckSystemEvents`: all its `AddEvent` calls. -/
def headTrackingEvents (K : MLHeadTrackingConstants) (prev cur : Nat) : List String :=
  headTrackingBitEvents K prev cur ++ headTrackingRestoredEvents K prev cur

/-- The memory-trim block of `CheckSystemEvents`. -/
def memoryTrimEvents (app : SystemNotificationsApp) (r : SystemReadings) : List String :=
  if app.memory_trim_level_ != r.GetLastTrimLevel then
    (if r.GetLastTrimLevel == 10 then ["Memory warning: memory running low.\n"] else []) ++
    (if r.GetLastTrimLevel == 15 then ["Memory warning: memory running critically low.\n"]
      else [])
  else []

/-- All `AddEvent` calls of one `CheckSystemEvents`, in program order. -/
def CheckSystemEvents_calls (K : MLHeadTrackingConstants) (app : SystemNotificationsApp)
    (r : SystemReadings) : List String :=
  networkEvents app r ++ internetEvents app r ++
  computeBatteryEvents app.compute_critical_ r.GetComputePackBatteryLevel ++
  controllerBatteryEvents app r ++
  warningEvents app.space_warning_ r.space_ratio_le
    "Available space is critically low (less than 10%).\n" ++
  warningEvents app.volume_warning_ r.audio_volume_ge
    "High volume warning: consider lowering volume. \n" ++
  warningEvents app.compute_pack_battery_temperature_warning_ r.temperature_ge
    "Compute Pack Temperature Warning: greater than 40 degrees Celsius.\n" ++
  headTrackingEvents K app.head_tracker_error_ r.head_tracking_error ++
  memoryTrimEvents app r

/-- `SystemNotificationsApp::CheckSystemEvents`: one polling tick. -/
def CheckSystemEvents (K : MLHeadTrackingConstants) (app : SystemNotificationsApp)
    (r : SystemReadings) : SystemNotificationsApp where
  network_connection_ := r.IsNetworkConnected
  internet_connection_ := r.IsInternetAvailable
  compute_pack_battery_level_ := r.GetComputePackBatteryLevel
  compute_critical_ := computeBatteryFlag app.compute_critical_ r.GetComputePackBatteryLevel
  controller_battery_level_ :=
    if r.IsControllerPresent then r.GetControllerBatteryLevel else app.controller_battery_level_
  controller_critical_ := controllerBatteryFlag app r
  controller_connection_state_ := app.controller_connection_state_
  controller_power_state_ := app.controller_power_state_
  space_warning_ := warningFlag app.space_warning_ r.space_ratio_le r.space_ratio_gt
  volume_warning_ := warningFlag app.volume_warning_ r.audio_volume_ge r.audio_volume_lt
  compute_pack_battery_temperature_warning_ :=
    warningFlag app.compute_pack_battery_temperature_warning_ r.temperature_ge r.temperature_lt
  head_tracker_error_ := r.head_tracking_error
  memory_trim_level_ := r.GetLastTrimLevel
  events_ := AddEvents app.events_ (CheckSystemEvents_calls K app r)

/-- The `AddEvent` calls of a run of ticks, one list per tick. -/
def tickCalls (K : MLHeadTrackingConstants) :
    SystemNotificationsApp → List SystemReadings → List (List String)
  | _, [] => []
  | app, r :: rs => CheckSystemEvents_calls K app r :: tickCalls K (CheckSystemEvents K app r) rs

/-- Message of the `default` branch of `OnControllerPowerStateChange`. -/
def invalidPowerStateMsg : String := "Invalid power state detected for controller.\n"

/-- The callback `SystemNotificationsApp::OnControllerPowerStateChange`; the
second argument is the application behind `context`, `none` for a null
pointer, for which only an error is logged. -/
def OnControllerPowerStateChange (state : MLPowerManagerPowerState) :
    Option SystemNotificationsApp → Option SystemNotificationsApp
  | none => none
  | some app =>
    if state = MLPowerManagerPowerState_Normal then
      some { app with
        events_ := AddEvent "Controller entered normal power state.\n" app.events_
        controller_power_state_ := MLPowerManagerPowerState_Normal }
    else if state = MLPowerManagerPowerState_DisabledWhileCharging then
      some { app with
        events_ := AddEvent
          "Controller cannot be used while connected to charging for this SKU.\n" app.events_
        controller_power_state_ := MLPowerManagerPowerState_DisabledWhileCharging }
    else if state = MLPowerManagerPowerState_Standby then
      some { app with
        events_ := AddEvent "Controller entered standby power state.\n" app.events_
        controller_power_state_ := MLPowerManagerPowerState_Standby }
    else
      some { app with events_ := AddEvent invalidPowerStateMsg app.events_ }

/-- The body of the loop of `OnControllerPropertiesChange` for one property. -/
def propertyStep (app : SystemNotificationsApp) (p : MLPowerManagerComponentProperty) :
    SystemNotificationsApp :=
  if p.property_type = MLPowerManagerPropertyType_ConnectionState then
    if p.connection_state = MLPowerManagerConnectionState_Connected then
      { app with
        events_ := AddEvent "Controller has been disconnected.\n" app.events_
        controller_connection_state_ := MLPowerManagerConnectionState_Connected }
    else if p.connection_state = MLPowerManagerConnectionState_Disconnected then
      { app with
        events_ := AddEvent "Controller has been connected.\n" app.events_
        controller_connection_state_ := MLPowerManagerConnectionState_Disconnected }
    else app
  else app

/-- The callback `SystemNotificationsApp::OnControllerPropertiesChange` on the
`size` entries of `property_data->properties`; the second argument is the
application behind `context`, `none` for a null pointer. -/
def OnControllerPropertiesChange (property_data : List MLPowerManagerComponentProperty) :
    Option SystemNotificationsApp → Option SystemNotificationsApp
  | none => none
  | some app => some (property_data.foldl propertyStep app)

/-- The string `GetMLPowerManagerConnectionStateString` returns. -/
def GetMLPowerManagerConnectionStateString (state : MLPowerManagerConnectionState) : String :=
  if state = MLPowerManagerConnectionState_Connected then "Connected."
  else if state = MLPowerManagerConnectionState_Disconnected then "Diconnected."
  else "Invalid connection state."

/-- The number of times a run of battery levels enters the range `<= 5`,
where `low` tells whether the level before the run was in the range. -/
def entriesIntoCritical (low : Bool) : List Int → Nat
  | [] => 0
  | level :: rest =>
    (if level ≤ 5 ∧ low = false then 1 else 0) + entriesIntoCritical (decide (level ≤ 5)) rest

/-- A reading with the given compute-pack battery level and every other probe
at rest. -/
def batteryReading (level : Int) : SystemReadings where
  IsNetworkConnected := false
  IsInternetAvailable := false
  GetComputePackBatteryLevel := level
  IsControllerPresent := false
  GetControllerBatteryLevel := 0
  space_ratio_le := false
  space_ratio_gt := true
  audio_volume_ge := false
  audio_volume_lt := true
  temperature_ge := false
  temperature_lt := true
  head_tracking_error := 0
  GetLastTrimLevel := 0

/-- The error flag whose test in `CheckSystemEvents` appends the message; zero
for any other message. -/
def flagOfMsg (K : MLHeadTrackingConstants) (m : String) : Nat :=
  if m = lowLightMsg then K.MLHeadTrackingErrorFlag_LowLight
  else if m = notEnoughFeaturesMsg then K.MLHeadTrackingErrorFlag_NotEnoughFeatures
  else if m = excessiveMotionMsg then K.MLHeadTrackingErrorFlag_ExcessiveMotion
  else if m = unknownErrorMsg then K.MLHeadTrackingErrorFlag_Unknown
  else 0

/-- The four flag messages in the order of their `if` statements in
`CheckSystemEvents`. -/
def flagMessages : List String :=
  [lowLightMsg, notEnoughFeaturesMsg, excessiveMotionMsg, unknownErrorMsg]

/-- Ten distinct events, in the order in which they are appended. -/
def tenEvents : List String :=
  ["e1", "e2", "e3", "e4", "e5", "e6", "e7", "e8", "e9", "e10"]

/-- A reading with the given head-tracking error and every other probe at rest. -/
def headTrackingReading (error : Nat) : SystemReadings :=
  { batteryReading 50 with head_tracking_error := error }

/-- The flag messages the specification's flag watcher emits: those of the
flags set in `newly_set = cur & ~prev` (on 32 bits), in the source's order. -/
def spec_newlySetEvents (K : MLHeadTrackingConstants) (prev cur : Nat) : List String :=
  let newly_set := cur &&& (2 ^ 32 - 1 - prev)
  (if newly_set &&& K.MLHeadTrackingErrorFlag_LowLight != 0 then [lowLightMsg] else []) ++
  (if newly_set &&& K.MLHeadTrackingErrorFlag_NotEnoughFeatures != 0 then [notEnoughFeaturesMsg]
    else []) ++
  (if newly_set &&& K.MLHeadTrackingErrorFlag_ExcessiveMotion != 0 then [excessiveMotionMsg]
    else []) ++
  (if newly_set &&& K.MLHeadTrackingErrorFlag_Unknown != 0 then [unknownErrorMsg] else [])

end SystemNotifications

namespace WorldCamera

/-! ## `WorldCameraApp` -/

/-- The enumeration `MLWorldCameraIdentifier` of `ml_world_camera.h`. -/
inductive MLWorldCameraIdentifier
  | None
  | Left
  | Right
  | Center
  | All
  | Ensure32Bits
  deriving DecidableEq, Repr, Fintype

/-- The enumerator values of `MLWorldCameraIdentifier`. -/
def MLWorldCameraIdentifier.toNat : MLWorldCameraIdentifier → Nat
  | .None => 0
  | .Left => 1 <<< 0
  | .Right => 1 <<< 1
  | .Center => 1 <<< 2
  | .All => (1 <<< 0) ||| (1 <<< 1) ||| (1 <<< 2)
  | .Ensure32Bits => 0x7FFFFFFF

/-- The enumeration `MLWorldCameraMode` of `ml_world_camera.h`. -/
inductive MLWorldCameraMode
  | Unknown
  | LowExposure
  | NormalExposure
  | Ensure32Bits
  deriving DecidableEq, Repr, Fintype

/-- The enumerator values of `MLWorldCameraMode`. -/
def MLWorldCameraMode.toNat : MLWorldCameraMode → Nat
  | .Unknown => 0
  | .LowExposure => 1 <<< 0
  | .NormalExposure => 1 <<< 1
  | .Ensure32Bits => 0x7FFFFFFF

/-- The enumeration `MLWorldCameraFrameType` of `ml_world_camera.h`. -/
inductive MLWorldCameraFrameType
  | Unknown
  | LowExposure
  | NormalExposure
  | Ensure32Bits
  deriving DecidableEq, Repr, Fintype

/-- The enumerator values of `MLWorldCameraFrameType`. -/
def MLWorldCameraFrameType.toNat : MLWorldCameraFrameType → Nat
  | .Unknown => 0
  | .LowExposure => 1
  | .NormalExposure => 2
  | .Ensure32Bits => 0x7FFFFFFF

/-- The `typedef std::pair<MLWorldCameraIdentifier, MLWorldCameraFrameType>`. -/
abbrev CameraIdModePair := MLWorldCameraIdentifier × MLWorldCameraFrameType

/-- A `std::map` or `std::unordered_map`: a key is absent (`none`) or holds a value. -/
abbrev Map (K V : Type) := K → Option V

/-- The value `m[k]` reads: the stored one, or the value-initialised default
that `operator[]` inserts for an absent key. -/
def Map.read {K V : Type} (m : Map K V) (k : K) (dflt : V) : V := (m k).getD dflt

/-- The map after `m[k]` was evaluated: an absent key now holds the default. -/
def Map.touch {K V : Type} [DecidableEq K] (m : Map K V) (k : K) (dflt : V) : Map K V :=
  fun j => if j = k then some ((m k).getD dflt) else m j

/-- The map without entries. -/
def Map.empty {K V : Type} : Map K V := fun _ => none

/-- The map after `m[k] = v`. -/
def Map.assign {K V : Type} [DecidableEq K] (m : Map K V) (k : K) (v : V) : Map K V :=
  fun j => if j = k then some v else m j

/-- The struct `MLWorldCameraSettings`; the three fields are `uint32_t`. -/
structure MLWorldCameraSettings where
  version : Nat
  mode : Nat
  cameras : Nat
  deriving DecidableEq, Repr

/-- The member variables of `WorldCameraApp` that the frame bookkeeping and the
settings dialog read or write. -/
structure WorldCameraApp where
  available_cameras_ : Map MLWorldCameraIdentifier Bool
  available_modes_ : Map MLWorldCameraFrameType Bool
  last_frame_num_ : Map CameraIdModePair Int
  dropped_frame_count : Map CameraIdModePair Int
  world_camera_settings_ : MLWorldCameraSettings

/-- The constant `INT64_MAX`. -/
def INT64_MAX : Int := 9223372036854775807

/-- The constant `INT64_MIN`. -/
def INT64_MIN : Int := -9223372036854775808

/-- A value of a signed two's-complement type of `w` bits: `x` reduced modulo
`2 ^ w` into `[-2 ^ (w - 1), 2 ^ (w - 1))`. -/
def wrapSigned (w : Nat) (x : Int) : Int :=
  (x + ((2 ^ (w - 1) : Nat) : Int)) % ((2 ^ w : Nat) : Int) - ((2 ^ (w - 1) : Nat) : Int)

/-- Arithmetic result stored in an `int64_t`. -/
def int64 (x : Int) : Int := wrapSigned 64 x

/-- Arithmetic result stored in an `int`. -/
def int32 (x : Int) : Int := wrapSigned 32 x

/-- The value is representable as `int64_t`. -/
def inInt64 (x : Int) : Prop := INT64_MIN ≤ x ∧ x ≤ INT64_MAX

instance (x : Int) : Decidable (inInt64 x) := by unfold inInt64; infer_instance

/-- The constructor of `WorldCameraApp`: three cameras and two modes are
active, and each of their six pairs starts with `last_frame_num_ = -1` and
`dropped_frame_count = 0`.  `world_camera_settings_` is not initialised by the
constructor and is a parameter. -/
def WorldCameraApp.new (settings : MLWorldCameraSettings) : WorldCameraApp :=
  let available_cameras_ : Map MLWorldCameraIdentifier Bool :=
    Map.assign (Map.assign (Map.assign Map.empty .Left true) .Center true) .Right true
  let available_modes_ : Map MLWorldCameraFrameType Bool :=
    Map.assign (Map.assign Map.empty .NormalExposure true) .LowExposure true
  { available_cameras_ := available_cameras_
    available_modes_ := available_modes_
    last_frame_num_ := fun k =>
      if (available_cameras_ k.1).isSome && (available_modes_ k.2).isSome then some (-1)
      else none
    dropped_frame_count := fun k =>
      if (available_cameras_ k.1).isSome && (available_modes_ k.2).isSome then some 0
      else none
    world_camera_settings_ := settings }

/-- The function `MLWorldCameraSettingsInit`; the argument is the struct behind
the pointer, `none` for a null pointer, for which nothing is done. -/
def MLWorldCameraSettingsInit : Option MLWorldCameraSettings → Option MLWorldCameraSettings
  | none => none
  | some _ =>
    some
      { version := 1
        mode := MLWorldCameraMode.NormalExposure.toNat
        cameras := MLWorldCameraIdentifier.All.toNat }

/-- The method `WorldCameraApp::OnStart`. -/
def OnStart (app : WorldCameraApp) : WorldCameraApp :=
  let s := (MLWorldCameraSettingsInit (some app.world_camera_settings_)).getD
    app.world_camera_settings_
  let s := { s with cameras := MLWorldCameraIdentifier.All.toNat }
  let s := { s with mode := MLWorldCameraFrameType.LowExposure.toNat |||
                              MLWorldCameraFrameType.NormalExposure.toNat }
  { app with world_camera_settings_ := s }

/-- The method `WorldCameraApp::OnPause`: every entry of `last_frame_num_` is
set to `-1`. -/
def OnPause (app : WorldCameraApp) : WorldCameraApp :=
  { app with last_frame_num_ := fun k => (app.last_frame_num_ k).map (fun _ => -1) }

/-- The computation of `frame_num_diff` in `CheckDroppedFrames`, each
intermediate result stored in an `int64_t`. -/
def frame_num_diff (last frame_number : Int) : Int :=
  if frame_number < last then
    let d := int64 (int64 (INT64_MAX - last) + frame_number)
    int64 (d + 1)
  else
    int64 (frame_number - last)

/-- The body of the loop of `CheckDroppedFrames` for one entry of
`processed_cameras`. -/
def checkFrame (app : WorldCameraApp) (camera_mode_pair : CameraIdModePair)
    (frame_number : Int) : WorldCameraApp :=
  let camera_on := app.available_cameras_.read camera_mode_pair.1 false
  let app := { app with
    available_cameras_ := app.available_cameras_.touch camera_mode_pair.1 false }
  if camera_on == false then app else
  let mode_on := app.available_modes_.read camera_mode_pair.2 false
  let app := { app with
    available_modes_ := app.available_modes_.touch camera_mode_pair.2 false }
  if mode_on == false then app else
  if frame_number < 0 then app else
  let last := app.last_frame_num_.read camera_mode_pair 0
  let app := { app with last_frame_num_ := app.last_frame_num_.touch camera_mode_pair 0 }
  if last != -1 then
    if frame_number == last then app else
    let diff := frame_num_diff last frame_number
    let app :=
      if diff > 1 then
        { app with
          dropped_frame_count := app.dropped_frame_count.assign camera_mode_pair
            (int32 (int64 (app.dropped_frame_count.read camera_mode_pair 0 + diff))) }
      else app
    { app with last_frame_num_ := app.last_frame_num_.assign camera_mode_pair frame_number }
  else
    { app with last_frame_num_ := app.last_frame_num_.assign camera_mode_pair frame_number }

/-- The method `WorldCameraApp::CheckDroppedFrames` on the entries of
`processed_cameras` (key and frame number), in iteration order. -/
def CheckDroppedFrames (app : WorldCameraApp) (processed_cameras : List (CameraIdModePair × Int)) :
    WorldCameraApp :=
  processed_cameras.foldl (fun app entry => checkFrame app entry.1 entry.2) app

/-- The method `WorldCameraApp::UpdateCameraMode`. -/
def UpdateCameraMode (app : WorldCameraApp) (mode : MLWorldCameraFrameType) (state : Bool) :
    WorldCameraApp :=
  { app with
    last_frame_num_ := fun k =>
      if k.2 = mode ∧ app.available_cameras_ k.1 = some true then some (-1)
      else app.last_frame_num_ k
    world_camera_settings_ :=
      if state then
        { app.world_camera_settings_ with
          mode := app.world_camera_settings_.mode ||| mode.toNat }
      else
        { app.world_camera_settings_ with
          mode := app.world_camera_settings_.mode &&& (2 ^ 32 - 1 - mode.toNat) } }

/-- The method `WorldCameraApp::UpdateCameraId`. -/
def UpdateCameraId (app : WorldCameraApp) (id : MLWorldCameraIdentifier) (state : Bool) :
    WorldCameraApp :=
  { app with
    last_frame_num_ := fun k =>
      if k.1 = id ∧ app.available_modes_ k.2 = some true then some (-1)
      else app.last_frame_num_ k
    world_camera_settings_ :=
      if state then
        { app.world_camera_settings_ with
          cameras := app.world_camera_settings_.cameras ||| id.toNat }
      else
        { app.world_camera_settings_ with
          cameras := app.world_camera_settings_.cameras &&& (2 ^ 32 - 1 - id.toNat) } }

/-- One mode checkbox of `DrawSettingsDialog` being clicked: the entry of
`available_modes_` is flipped and `UpdateCameraMode` is called with the new
value.  A checkbox exists only for the keys present in the map. -/
def toggleMode (app : WorldCameraApp) (mode : MLWorldCameraFrameType) : WorldCameraApp :=
  match app.available_modes_ mode with
  | none => app
  | some b =>
    UpdateCameraMode { app with available_modes_ := app.available_modes_.assign mode (!b) }
      mode (!b)

/-- One camera checkbox of `DrawSettingsDialog` being clicked. -/
def toggleCamera (app : WorldCameraApp) (camera : MLWorldCameraIdentifier) : WorldCameraApp :=
  match app.available_cameras_ camera with
  | none => app
  | some b =>
    UpdateCameraId { app with available_cameras_ := app.available_cameras_.assign camera (!b) }
      camera (!b)

/-- A `processed_cameras` map the SDK can deliver: one entry per key, every
frame number an `int64_t`. -/
def WellFormedFrames (processed_cameras : List (CameraIdModePair × Int)) : Prop :=
  (processed_cameras.map Prod.fst).Nodup ∧ ∀ e ∈ processed_cameras, inInt64 e.2

instance (b : List (CameraIdModePair × Int)) : Decidable (WellFormedFrames b) := by
  unfold WellFormedFrames; infer_instance

/-- The states of the tracker the application can be in: the constructor's
state and whatever follows from it by `OnStart`, `OnPause`, frame processing
and clicks in the settings dialog. -/
inductive Reachable : WorldCameraApp → Prop
  | new (settings : MLWorldCameraSettings) : Reachable (WorldCameraApp.new settings)
  | onStart {app : WorldCameraApp} : Reachable app → Reachable (OnStart app)
  | onPause {app : WorldCameraApp} : Reachable app → Reachable (OnPause app)
  | frames {app : WorldCameraApp} (processed_cameras : List (CameraIdModePair × Int)) :
      Reachable app → WellFormedFrames processed_cameras →
      Reachable (CheckDroppedFrames app processed_cameras)
  | mode {app : WorldCameraApp} (m : MLWorldCameraFrameType) :
      Reachable app → Reachable (toggleMode app m)
  | camera {app : WorldCameraApp} (c : MLWorldCameraIdentifier) :
      Reachable app → Reachable (toggleCamera app c)

/-- The key is enabled: its camera and its mode are both switched on. -/
def Enabled (app : WorldCameraApp) (k : CameraIdModePair) : Prop :=
  app.available_cameras_ k.1 = some true ∧ app.available_modes_ k.2 = some true

instance (app : WorldCameraApp) (k : CameraIdModePair) : Decidable (Enabled app k) := by
  unfold Enabled; infer_instance

/-- The invariant of the tracker maps: every stored `last_frame_num_` is the
sentinel `-1` or a frame number between 0 and `INT64_MAX`, and every enabled
key has an entry in `last_frame_num_`. -/
def TrackerInvariant (app : WorldCameraApp) : Prop :=
  (∀ k v, app.last_frame_num_ k = some v → (v = -1 ∨ 0 ≤ v) ∧ v ≤ INT64_MAX) ∧
  (∀ k, Enabled app k → app.last_frame_num_ k ≠ none)

/-- The value is representable as `int`. -/
def inInt32 (x : Int) : Prop := -2147483648 ≤ x ∧ x ≤ 2147483647

instance (x : Int) : Decidable (inInt32 x) := by unfold inInt32; infer_instance

/-- A key that is not enabled has no frame number recorded: its entry of
`last_frame_num_` is absent or the sentinel `-1`. -/
def DisabledUnprimed (app : WorldCameraApp) : Prop :=
  ∀ k, ¬ Enabled app k → app.last_frame_num_ k = none ∨ app.last_frame_num_ k = some (-1)

/-- The key of the right camera in low-exposure mode. -/
def rightLow : CameraIdModePair := (.Right, .LowExposure)

/-- The states that follow from the constructor's state by any sequence of
calls of `OnStart`, `OnPause`, `CheckDroppedFrames`, `UpdateCameraMode` and
`UpdateCameraId` with arbitrary arguments, and of checkbox clicks. -/
inductive ReachableByCalls : WorldCameraApp → Prop
  | new (settings : MLWorldCameraSettings) : ReachableByCalls (WorldCameraApp.new settings)
  | onStart {app : WorldCameraApp} : ReachableByCalls app → ReachableByCalls (OnStart app)
  | onPause {app : WorldCameraApp} : ReachableByCalls app → ReachableByCalls (OnPause app)
  | frames {app : WorldCameraApp} (processed_cameras : List (CameraIdModePair × Int)) :
      ReachableByCalls app → ReachableByCalls (CheckDroppedFrames app processed_cameras)
  | updateCameraMode {app : WorldCameraApp} (m : MLWorldCameraFrameType) (state : Bool) :
      ReachableByCalls app → ReachableByCalls (UpdateCameraMode app m state)
  | updateCameraId {app : WorldCameraApp} (c : MLWorldCameraIdentifier) (state : Bool) :
      ReachableByCalls app → ReachableByCalls (UpdateCameraId app c state)
  | mode {app : WorldCameraApp} (m : MLWorldCameraFrameType) :
      ReachableByCalls app → ReachableByCalls (toggleMode app m)
  | camera {app : WorldCameraApp} (c : MLWorldCameraIdentifier) :
      ReachableByCalls app → ReachableByCalls (toggleCamera app c)

/-- The six keys the constructor creates: a camera among Left, Center, Right
and a mode among NormalExposure, LowExposure. -/
def constructorKey (k : CameraIdModePair) : Prop :=
  (k.1 = .Left ∨ k.1 = .Center ∨ k.1 = .Right) ∧ (k.2 = .NormalExposure ∨ k.2 = .LowExposure)

instance (k : CameraIdModePair) : Decidable (constructorKey k) := by
  unfold constructorKey; infer_instance

/-- The state after the constructor and `OnStart`. -/
def startedApp : WorldCameraApp := OnStart (WorldCameraApp.new ⟨0, 0, 0⟩)

/-- The key of the left camera in normal-exposure mode. -/
def leftNormal : CameraIdModePair := (.Left, .NormalExposure)

/-- Every stored `last_frame_num_` is the sentinel `-1` or not negative. -/
def SentinelOrFrame (app : WorldCameraApp) : Prop :=
  ∀ k v, app.last_frame_num_ k = some v → v = -1 ∨ 0 ≤ v

/-- The state in which the normal-exposure checkbox has been cleared after start. -/
def normalOffApp : WorldCameraApp := toggleMode startedApp .NormalExposure

end WorldCamera

namespace SystemNotifications

/-! ## Theorems on `SystemNotificationsApp` -/

/-- C1: eleven `AddEvent` calls on the empty log (eleven `OnLowMemory`
callbacks) leave `events_` with eleven entries, one more than `SYS_NUM_EVENTS`:
the size test of `AddEvent` is `>` and lets the log grow past the capacity. -/
theorem AddEvent_eleven_calls_length :
    (AddEvents []
      (List.replicate 11 "Memory Warning: APP_CMD_LOW_MEMORY lifecycle event occurred.\n")).length
      = 11 ∧
    SYS_NUM_EVENTS <
      (AddEvents []
        (List.replicate 11
          "Memory Warning: APP_CMD_LOW_MEMORY lifecycle event occurred.\n")).length := by
  decide

/-- C3, as stated, fails: with the previous reading `LowLight` (4) and the new
reading `LowLight | ExcessiveMotion` (12) the low-light flag is set in both
readings and is not among the newly set bits, yet its message is appended
again, so the appended messages differ from those of `cur & ~prev`. -/
theorem headTracking_repeats_set_flag :
    (4 &&& ml_head_tracking_h.MLHeadTrackingErrorFlag_LowLight ≠ 0) ∧
    (12 &&& ml_head_tracking_h.MLHeadTrackingErrorFlag_LowLight ≠ 0) ∧
    ((12 &&& (2 ^ 32 - 1 - 4)) &&& ml_head_tracking_h.MLHeadTrackingErrorFlag_LowLight = 0) ∧
    lowLightMsg ∈ headTrackingBitEvents ml_head_tracking_h 4 12 ∧
    headTrackingBitEvents ml_head_tracking_h 4 12 = [lowLightMsg, excessiveMotionMsg] ∧
    spec_newlySetEvents ml_head_tracking_h 4 12 = [excessiveMotionMsg] ∧
    headTrackingBitEvents ml_head_tracking_h 4 12 ≠ spec_newlySetEvents ml_head_tracking_h 4 12 := by
  decide

/-- C3, amended: when the reading did not change no flag message is appended;
when it changed, the message of each of the four flags is appended exactly once
if the flag is set in the new reading `cur` (whether or not it was set in
`prev`) and not at all otherwise, and nothing but these four messages is
appended by the four flag tests. -/
theorem headTracking_bit_events_of_current (K : MLHeadTrackingConstants) (prev cur : Nat) :
    (List.count lowLightMsg (headTrackingBitEvents K prev cur) =
      if prev ≠ cur ∧ cur &&& K.MLHeadTrackingErrorFlag_LowLight ≠ 0 then 1 else 0) ∧
    (List.count notEnoughFeaturesMsg (headTrackingBitEvents K prev cur) =
      if prev ≠ cur ∧ cur &&& K.MLHeadTrackingErrorFlag_NotEnoughFeatures ≠ 0 then 1 else 0) ∧
    (List.count excessiveMotionMsg (headTrackingBitEvents K prev cur) =
      if prev ≠ cur ∧ cur &&& K.MLHeadTrackingErrorFlag_ExcessiveMotion ≠ 0 then 1 else 0) ∧
    (List.count unknownErrorMsg (headTrackingBitEvents K prev cur) =
      if prev ≠ cur ∧ cur &&& K.MLHeadTrackingErrorFlag_Unknown ≠ 0 then 1 else 0) ∧
    (∀ m ∈ headTrackingBitEvents K prev cur,
      m = lowLightMsg ∨ m = notEnoughFeaturesMsg ∨ m = excessiveMotionMsg ∨
        m = unknownErrorMsg) := by
  unfold headTrackingBitEvents lowLightMsg notEnoughFeaturesMsg excessiveMotionMsg unknownErrorMsg
  by_cases h : prev = cur
  · simp [h]
  · by_cases h1 : cur &&& K.MLHeadTrackingErrorFlag_LowLight = 0 <;>
    by_cases h2 : cur &&& K.MLHeadTrackingErrorFlag_NotEnoughFeatures = 0 <;>
    by_cases h3 : cur &&& K.MLHeadTrackingErrorFlag_ExcessiveMotion = 0 <;>
    by_cases h4 : cur &&& K.MLHeadTrackingErrorFlag_Unknown = 0 <;>
    simp [h, h1, h2, h3, h4, List.count_cons]

/-- The flag `compute_critical_` after a tick records whether the level read
in that tick was in the range `<= 5`. -/
theorem compute_critical_after_tick (K : MLHeadTrackingConstants) (app : SystemNotificationsApp)
    (r : SystemReadings) :
    (CheckSystemEvents K app r).compute_critical_ = decide (r.GetComputePackBatteryLevel ≤ 5) := by
  simp only [CheckSystemEvents, computeBatteryFlag]
  by_cases h : r.GetComputePackBatteryLevel ≤ 5
  · have h' : ¬ (5 < r.GetComputePackBatteryLevel) := by omega
    cases hc : app.compute_critical_ <;> simp [h, h']
  · have h' : 5 < r.GetComputePackBatteryLevel := by omega
    cases hc : app.compute_critical_ <;> simp [h, h']

/-- The critical-battery message occurs in a tick once when the level is in the
range and the flag was clear, and not at all otherwise. -/
theorem count_computeCriticalMsg_calls (K : MLHeadTrackingConstants)
    (app : SystemNotificationsApp) (r : SystemReadings) :
    List.count computeCriticalMsg (CheckSystemEvents_calls K app r) =
      if r.GetComputePackBatteryLevel ≤ 5 ∧ app.compute_critical_ = false then 1 else 0 := by
  have e1 : List.count computeCriticalMsg (networkEvents app r) = 0 := by
    unfold networkEvents computeCriticalMsg
    split_ifs <;> simp [List.count_cons]
  have e2 : List.count computeCriticalMsg (internetEvents app r) = 0 := by
    unfold internetEvents computeCriticalMsg
    split_ifs <;> simp [List.count_cons]
  have e3 : List.count computeCriticalMsg (controllerBatteryEvents app r) = 0 := by
    unfold controllerBatteryEvents computeCriticalMsg
    split_ifs <;> simp [List.count_cons]
  have e4 : ∀ (f e : Bool) (m : String), m ≠ computeCriticalMsg →
      List.count computeCriticalMsg (warningEvents f e m) = 0 := by
    intro f e m hm
    unfold warningEvents
    split_ifs
    · simp [List.count_cons, hm]
    · simp
  have e5 : List.count computeCriticalMsg
      (headTrackingEvents K app.head_tracker_error_ r.head_tracking_error) = 0 := by
    unfold headTrackingEvents headTrackingBitEvents headTrackingRestoredEvents computeCriticalMsg
      lowLightMsg notEnoughFeaturesMsg excessiveMotionMsg unknownErrorMsg restoredMsg
    split_ifs <;> simp [List.count_cons]
  have e6 : List.count computeCriticalMsg (memoryTrimEvents app r) = 0 := by
    unfold memoryTrimEvents computeCriticalMsg
    split_ifs <;> simp [List.count_cons]
  have e7 : List.count computeCriticalMsg
      (computeBatteryEvents app.compute_critical_ r.GetComputePackBatteryLevel) =
      if r.GetComputePackBatteryLevel ≤ 5 ∧ app.compute_critical_ = false then 1 else 0 := by
    unfold computeBatteryEvents
    by_cases h : r.GetComputePackBatteryLevel ≤ 5 <;>
    cases hc : app.compute_critical_ <;> simp [h]
  unfold CheckSystemEvents_calls
  simp only [List.count_append, e1, e2, e3, e5, e6, e7]
  rw [e4 _ _ _ (by unfold computeCriticalMsg; decide), e4 _ _ _ (by unfold computeCriticalMsg; decide),
    e4 _ _ _ (by unfold computeCriticalMsg; decide)]
  simp

/-- The critical-battery message belongs to the calls of a tick exactly when
the level is in the range and the flag was clear. -/
theorem computeCriticalMsg_mem_calls (K : MLHeadTrackingConstants) (app : SystemNotificationsApp)
    (r : SystemReadings) :
    computeCriticalMsg ∈ CheckSystemEvents_calls K app r ↔
      (r.GetComputePackBatteryLevel ≤ 5 ∧ app.compute_critical_ = false) := by
  rw [← List.count_pos_iff, count_computeCriticalMsg_calls]
  split_ifs with h
  · simp [h]
  · simp [h]

/-- The critical-battery message is appended in tick `i` exactly when the level
of tick `i` is in the range and the level of tick `i - 1` was not (for the
first tick: the flag was clear on entry). -/
theorem computeCriticalMsg_mem_tick (K : MLHeadTrackingConstants) (i : Nat) :
    ∀ (app : SystemNotificationsApp) (rs : List SystemReadings),
      computeCriticalMsg ∈ (tickCalls K app rs).getD i [] ↔
        ∃ r, rs[i]? = some r ∧ r.GetComputePackBatteryLevel ≤ 5 ∧
          (if i = 0 then app.compute_critical_ = false
           else ∃ p, rs[i - 1]? = some p ∧ 5 < p.GetComputePackBatteryLevel) := by
  induction i with
  | zero =>
    intro app rs
    cases rs with
    | nil => simp [tickCalls]
    | cons r rs => simp [tickCalls, computeCriticalMsg_mem_calls]
  | succ i ih =>
    intro app rs
    cases rs with
    | nil => simp [tickCalls]
    | cons r rs =>
      have hstep : (tickCalls K app (r :: rs)).getD (i + 1) [] =
          (tickCalls K (CheckSystemEvents K app r) rs).getD i [] := by
        simp [tickCalls]
      rw [hstep, ih]
      cases i with
      | zero =>
        simp [compute_critical_after_tick]
      | succ i =>
        simp

/-- The number of critical-battery messages of a run equals the number of
entries of the level into the range `<= 5`. -/
theorem count_computeCriticalMsg_run (K : MLHeadTrackingConstants) :
    ∀ (rs : List SystemReadings) (app : SystemNotificationsApp),
      List.count computeCriticalMsg (tickCalls K app rs).flatten =
        entriesIntoCritical app.compute_critical_
          (rs.map (fun r => r.GetComputePackBatteryLevel)) := by
  intro rs
  induction rs with
  | nil => intro app; simp [tickCalls, entriesIntoCritical]
  | cons r rs ih =>
    intro app
    simp only [tickCalls, List.flatten_cons, List.count_append, List.map_cons,
      entriesIntoCritical, ih, count_computeCriticalMsg_calls, compute_critical_after_tick]

/-- C4: running `CheckSystemEvents` tick by tick from a state with
`compute_critical_ = false`, between any two ticks that append the
critical-battery event there is a tick strictly in between whose level is above
5, and the number of such events is at most the number of entries of the level
into the range `<= 5`. -/
theorem compute_critical_edge_triggered (K : MLHeadTrackingConstants)
    (app : SystemNotificationsApp) (rs : List SystemReadings)
    (h0 : app.compute_critical_ = false) :
    (∀ i j, i < j →
      computeCriticalMsg ∈ (tickCalls K app rs).getD i [] →
      computeCriticalMsg ∈ (tickCalls K app rs).getD j [] →
      ∃ k r, i < k ∧ k < j ∧ rs[k]? = some r ∧ 5 < r.GetComputePackBatteryLevel) ∧
    List.count computeCriticalMsg (tickCalls K app rs).flatten ≤
      entriesIntoCritical false (rs.map (fun r => r.GetComputePackBatteryLevel)) := by
  constructor
  · intro i j hij hi hj
    rw [computeCriticalMsg_mem_tick] at hi hj
    obtain ⟨ri, hri, hlow, -⟩ := hi
    obtain ⟨rj, -, -, hprev⟩ := hj
    have hj0 : j ≠ 0 := by omega
    rw [if_neg hj0] at hprev
    obtain ⟨p, hp, hp5⟩ := hprev
    refine ⟨j - 1, p, ?_, by omega, hp, hp5⟩
    by_contra hcon
    have hij' : j - 1 = i := by omega
    rw [hij', hri] at hp
    cases hp
    omega
  · rw [count_computeCriticalMsg_run, h0]

/-- Witness of the edge-triggered battery watcher: the constructor's state and
the levels 3, 50, 4. -/
theorem compute_critical_edge_triggered_witness :
    (∀ i j, i < j →
      computeCriticalMsg ∈
        (tickCalls ml_head_tracking_h (SystemNotificationsApp.new ml_head_tracking_h 0)
          [batteryReading 3, batteryReading 50, batteryReading 4]).getD i [] →
      computeCriticalMsg ∈
        (tickCalls ml_head_tracking_h (SystemNotificationsApp.new ml_head_tracking_h 0)
          [batteryReading 3, batteryReading 50, batteryReading 4]).getD j [] →
      ∃ k r, i < k ∧ k < j ∧
        [batteryReading 3, batteryReading 50, batteryReading 4][k]? = some r ∧
        5 < r.GetComputePackBatteryLevel) ∧
    List.count computeCriticalMsg
        (tickCalls ml_head_tracking_h (SystemNotificationsApp.new ml_head_tracking_h 0)
          [batteryReading 3, batteryReading 50, batteryReading 4]).flatten ≤
      entriesIntoCritical false
        ([batteryReading 3, batteryReading 50, batteryReading 4].map
          (fun r => r.GetComputePackBatteryLevel)) :=
  compute_critical_edge_triggered ml_head_tracking_h
    (SystemNotificationsApp.new ml_head_tracking_h 0)
    [batteryReading 3, batteryReading 50, batteryReading 4] rfl

/-- C12: a log of exactly ten entries is not evicted by `AddEvent`: the size
test `10 > SYS_NUM_EVENTS` fails, the front entry stays and the log grows to
eleven entries instead of being the old log without its first entry followed by
the new message. -/
theorem AddEvent_at_capacity_keeps_front :
    tenEvents.length = SYS_NUM_EVENTS ∧
    AddEvent "e11" tenEvents = tenEvents ++ ["e11"] ∧
    (AddEvent "e11" tenEvents).length = 11 ∧
    (AddEvent "e11" tenEvents).head? = some "e1" ∧
    AddEvent "e11" tenEvents ≠ tenEvents.tail ++ ["e11"] := by
  decide

/-- C13: after eleven appends to the empty log the first entry is still the
first message appended, not the second one, which is the `(count - N + 1)`-th
for `count = 11` and `N = 10`; after twelve appends it is the second, not the
third. -/
theorem AddEvents_earliest_survivor_off_by_one :
    (AddEvents [] (tenEvents ++ ["e11"])).head? = some "e1" ∧
    (tenEvents ++ ["e11"])[11 - SYS_NUM_EVENTS]? = some "e2" ∧
    (AddEvents [] (tenEvents ++ ["e11", "e12"])).head? = some "e2" ∧
    (tenEvents ++ ["e11", "e12"])[12 - SYS_NUM_EVENTS]? = some "e3" := by
  decide

/-- One `AddEvent` drops at most one entry from the front of the old log
followed by the new event. -/
theorem AddEvent_eq_drop (m : String) (log : List String) :
    ∃ d, d ≤ 1 ∧ AddEvent m log = (log ++ [m]).drop d := by
  unfold AddEvent
  by_cases h : log.length > SYS_NUM_EVENTS
  · refine ⟨1, le_refl 1, ?_⟩
    cases log with
    | nil => simp [SYS_NUM_EVENTS] at h
    | cons x t => rw [if_pos h]; rfl
  · exact ⟨0, Nat.zero_le 1, by rw [if_neg h]; rfl⟩

/-- A run of `AddEvent` calls leaves the old log followed by the new events,
without some entries at the front. -/
theorem AddEvents_eq_drop (calls : List String) :
    ∀ log : List String, ∃ d, AddEvents log calls = (log ++ calls).drop d := by
  induction calls with
  | nil => intro log; exact ⟨0, by simp [AddEvents]⟩
  | cons c cs ih =>
    intro log
    obtain ⟨d0, hd0, h0⟩ := AddEvent_eq_drop c log
    obtain ⟨d1, h1⟩ := ih (AddEvent c log)
    refine ⟨d0 + d1, ?_⟩
    have hstep : AddEvents log (c :: cs) = AddEvents (AddEvent c log) cs := rfl
    have hlen : d0 ≤ (log ++ [c]).length := by
      simp only [List.length_append, List.length_singleton]
      omega
    rw [hstep, h1, h0, ← List.drop_append_of_le_length hlen, List.drop_drop,
      List.append_assoc, List.singleton_append, Nat.add_comm d0 d1]

/-- C14: after `AddEvent m` the last entry is `m` and the log is the old log
followed by `m` without at most one entry at the front; after any run of
`AddEvent` calls the log is a contiguous suffix of the old log followed by the
appended messages, and from the empty log a suffix of the appended messages. -/
theorem AddEvent_fifo_order (m : String) (log calls : List String) :
    (AddEvent m log).getLast? = some m ∧
    (∃ d, d ≤ 1 ∧ AddEvent m log = (log ++ [m]).drop d) ∧
    (∃ d, AddEvents log calls = (log ++ calls).drop d) ∧
    (AddEvents log calls <:+ log ++ calls) ∧
    (AddEvents [] calls <:+ calls) := by
  refine ⟨?_, AddEvent_eq_drop m log, AddEvents_eq_drop calls log, ?_, ?_⟩
  · unfold AddEvent
    simp
  · obtain ⟨d, hd⟩ := AddEvents_eq_drop calls log
    rw [hd]
    exact List.drop_suffix d _
  · obtain ⟨d, hd⟩ := AddEvents_eq_drop calls []
    rw [hd]
    simpa using List.drop_suffix d calls

/-- A head-tracking message is appended only by the head-tracking block. -/
theorem count_headTracking_msg_calls (K : MLHeadTrackingConstants)
    (app : SystemNotificationsApp) (r : SystemReadings) (m : String)
    (hm : m ∈ restoredMsg :: flagMessages) :
    List.count m (CheckSystemEvents_calls K app r) =
      List.count m (headTrackingEvents K app.head_tracker_error_ r.head_tracking_error) := by
  have e1 : List.count m (networkEvents app r) = 0 := by
    unfold networkEvents
    simp only [flagMessages, restoredMsg, lowLightMsg, notEnoughFeaturesMsg, excessiveMotionMsg,
      unknownErrorMsg, List.mem_cons, List.mem_singleton, List.not_mem_nil, or_false] at hm
    rcases hm with h | h | h | h | h <;> subst h <;> split_ifs <;> simp [List.count_cons]
  have e2 : List.count m (internetEvents app r) = 0 := by
    unfold internetEvents
    simp only [flagMessages, restoredMsg, lowLightMsg, notEnoughFeaturesMsg, excessiveMotionMsg,
      unknownErrorMsg, List.mem_cons, List.mem_singleton, List.not_mem_nil, or_false] at hm
    rcases hm with h | h | h | h | h <;> subst h <;> split_ifs <;> simp [List.count_cons]
  have e3 : List.count m
      (computeBatteryEvents app.compute_critical_ r.GetComputePackBatteryLevel) = 0 := by
    unfold computeBatteryEvents computeCriticalMsg
    simp only [flagMessages, restoredMsg, lowLightMsg, notEnoughFeaturesMsg, excessiveMotionMsg,
      unknownErrorMsg, List.mem_cons, List.mem_singleton, List.not_mem_nil, or_false] at hm
    rcases hm with h | h | h | h | h <;> subst h <;> split_ifs <;> simp [List.count_cons]
  have e4 : List.count m (controllerBatteryEvents app r) = 0 := by
    unfold controllerBatteryEvents
    simp only [flagMessages, restoredMsg, lowLightMsg, notEnoughFeaturesMsg, excessiveMotionMsg,
      unknownErrorMsg, List.mem_cons, List.mem_singleton, List.not_mem_nil, or_false] at hm
    rcases hm with h | h | h | h | h <;> subst h <;> split_ifs <;> simp [List.count_cons]
  have e5 : ∀ (f e : Bool) (w : String), w ∉ restoredMsg :: flagMessages →
      List.count m (warningEvents f e w) = 0 := by
    intro f e w hw
    have hne : w ≠ m := fun h => hw (h ▸ hm)
    unfold warningEvents
    split_ifs
    · simp [List.count_cons, hne]
    · simp
  have e6 : List.count m (memoryTrimEvents app r) = 0 := by
    unfold memoryTrimEvents
    simp only [flagMessages, restoredMsg, lowLightMsg, notEnoughFeaturesMsg, excessiveMotionMsg,
      unknownErrorMsg, List.mem_cons, List.mem_singleton, List.not_mem_nil, or_false] at hm
    rcases hm with h | h | h | h | h <;> subst h <;> split_ifs <;> simp [List.count_cons]
  unfold CheckSystemEvents_calls
  simp only [List.count_append, e1, e2, e3, e4, e6]
  rw [e5 _ _ _ (by decide), e5 _ _ _ (by decide), e5 _ _ _ (by decide)]
  simp

/-- C15: when the previous head-tracking error is not zero and the new
reading is zero (the value of `MLHeadTrackingError_None`), the head-tracking
block appends the recovery message and nothing else, and the whole tick
contains the recovery message once and none of the four flag messages. -/
theorem headTracking_restored_once (K : MLHeadTrackingConstants) (app : SystemNotificationsApp)
    (r : SystemReadings) (hK : K.MLHeadTrackingError_None = 0)
    (hprev : app.head_tracker_error_ ≠ 0) (hcur : r.head_tracking_error = 0) :
    headTrackingEvents K app.head_tracker_error_ r.head_tracking_error = [restoredMsg] ∧
    List.count restoredMsg (CheckSystemEvents_calls K app r) = 1 ∧
    (∀ m ∈ flagMessages, List.count m (CheckSystemEvents_calls K app r) = 0) := by
  have hblock :
      headTrackingEvents K app.head_tracker_error_ r.head_tracking_error = [restoredMsg] := by
    unfold headTrackingEvents headTrackingBitEvents headTrackingRestoredEvents
    rw [hcur, hK]
    simp [hprev]
  refine ⟨hblock, ?_, ?_⟩
  · rw [count_headTracking_msg_calls K app r restoredMsg (List.mem_cons_self _ _), hblock]
    simp
  · intro m hm
    rw [count_headTracking_msg_calls K app r m (List.mem_cons_of_mem _ hm), hblock]
    have hne : restoredMsg ≠ m := by
      simp only [flagMessages, List.mem_cons, List.mem_singleton, List.not_mem_nil,
        or_false] at hm
      rcases hm with h | h | h | h <;> subst h <;> decide
    simp [List.count_cons, hne]

/-- Witness of the recovery event: the previous reading is the low-light flag
and the new reading is zero. -/
theorem headTracking_restored_once_witness :
    headTrackingEvents ml_head_tracking_h
        (CheckSystemEvents ml_head_tracking_h (SystemNotificationsApp.new ml_head_tracking_h 0)
          (headTrackingReading 4)).head_tracker_error_
        (headTrackingReading 0).head_tracking_error = [restoredMsg] ∧
    List.count restoredMsg
        (CheckSystemEvents_calls ml_head_tracking_h
          (CheckSystemEvents ml_head_tracking_h (SystemNotificationsApp.new ml_head_tracking_h 0)
            (headTrackingReading 4))
          (headTrackingReading 0)) = 1 ∧
    (∀ m ∈ flagMessages,
      List.count m
        (CheckSystemEvents_calls ml_head_tracking_h
          (CheckSystemEvents ml_head_tracking_h (SystemNotificationsApp.new ml_head_tracking_h 0)
            (headTrackingReading 4))
          (headTrackingReading 0)) = 0) :=
  headTracking_restored_once ml_head_tracking_h
    (CheckSystemEvents ml_head_tracking_h (SystemNotificationsApp.new ml_head_tracking_h 0)
      (headTrackingReading 4))
    (headTrackingReading 0) rfl (by decide) rfl

/-- C16, as stated, fails: with the flags at bits 0 to 3, a change from no
error to `NotEnoughFeatures | LowLight` (6) appends the low-light message (bit
2) before the not-enough-features message (bit 1), and a change to all four
flags (15) appends them in the bit order 2, 1, 3, 0. -/
theorem headTracking_order_not_by_bit_index :
    headTrackingBitEvents ml_head_tracking_h 0 6 = [lowLightMsg, notEnoughFeaturesMsg] ∧
    (headTrackingBitEvents ml_head_tracking_h 0 6).map (flagOfMsg ml_head_tracking_h) =
      [1 <<< 2, 1 <<< 1] ∧
    ¬ List.Pairwise (fun a b => a < b)
      ((headTrackingBitEvents ml_head_tracking_h 0 6).map (flagOfMsg ml_head_tracking_h)) ∧
    (headTrackingBitEvents ml_head_tracking_h 0 15).map (flagOfMsg ml_head_tracking_h) =
      [1 <<< 2, 1 <<< 1, 1 <<< 3, 1 <<< 0] := by
  decide

/-- C16, amended: the flag messages appended in one tick are the messages of
the flags set in the new reading (none when the reading did not change), in
the fixed order of the source's `if` statements: LowLight, NotEnoughFeatures,
ExcessiveMotion, Unknown. -/
theorem headTracking_bit_events_source_order (K : MLHeadTrackingConstants) (prev cur : Nat) :
    headTrackingBitEvents K prev cur =
      flagMessages.filter (fun m => decide (prev ≠ cur ∧ cur &&& flagOfMsg K m ≠ 0)) ∧
    List.Sublist (headTrackingBitEvents K prev cur) flagMessages := by
  have hfilter : headTrackingBitEvents K prev cur =
      flagMessages.filter (fun m => decide (prev ≠ cur ∧ cur &&& flagOfMsg K m ≠ 0)) := by
    unfold headTrackingBitEvents flagMessages flagOfMsg lowLightMsg notEnoughFeaturesMsg
      excessiveMotionMsg unknownErrorMsg
    by_cases h : prev = cur
    · simp [h]
    · by_cases h1 : cur &&& K.MLHeadTrackingErrorFlag_LowLight = 0 <;>
      by_cases h2 : cur &&& K.MLHeadTrackingErrorFlag_NotEnoughFeatures = 0 <;>
      by_cases h3 : cur &&& K.MLHeadTrackingErrorFlag_ExcessiveMotion = 0 <;>
      by_cases h4 : cur &&& K.MLHeadTrackingErrorFlag_Unknown = 0 <;>
      simp [h, h1, h2, h3, h4, List.filter_cons]
  refine ⟨hfilter, ?_⟩
  rw [hfilter]
  exact List.filter_sublist _

/-- C17: with `compute_critical_ = false` on entry, a tick whose compute-pack
level is at most 5 (5 included) appends the critical-low event exactly once and
leaves `compute_critical_ = true`; a tick whose level is at least 6 appends no
such event and leaves the flag clear. -/
theorem compute_battery_threshold (K : MLHeadTrackingConstants) (app : SystemNotificationsApp)
    (r : SystemReadings) (h0 : app.compute_critical_ = false) :
    (r.GetComputePackBatteryLevel ≤ 5 →
      computeBatteryEvents app.compute_critical_ r.GetComputePackBatteryLevel =
        [computeCriticalMsg] ∧
      List.count computeCriticalMsg (CheckSystemEvents_calls K app r) = 1 ∧
      (CheckSystemEvents K app r).compute_critical_ = true) ∧
    (6 ≤ r.GetComputePackBatteryLevel →
      computeBatteryEvents app.compute_critical_ r.GetComputePackBatteryLevel = [] ∧
      List.count computeCriticalMsg (CheckSystemEvents_calls K app r) = 0 ∧
      (CheckSystemEvents K app r).compute_critical_ = false) := by
  constructor
  · intro hle
    refine ⟨?_, ?_, ?_⟩
    · unfold computeBatteryEvents
      simp [h0, hle]
    · rw [count_computeCriticalMsg_calls, if_pos ⟨hle, h0⟩]
    · rw [compute_critical_after_tick]
      simp [hle]
  · intro hge
    have hnot : ¬ r.GetComputePackBatteryLevel ≤ 5 := by omega
    refine ⟨?_, ?_, ?_⟩
    · unfold computeBatteryEvents
      simp [hnot]
    · rw [count_computeCriticalMsg_calls, if_neg (fun h => hnot h.1)]
    · rw [compute_critical_after_tick]
      simp [hnot]

/-- Witness of the threshold boundary: the constructor's state with the levels
5 and 6. -/
theorem compute_battery_threshold_witness :
    (computeBatteryEvents (SystemNotificationsApp.new ml_head_tracking_h 0).compute_critical_
        (batteryReading 5).GetComputePackBatteryLevel = [computeCriticalMsg] ∧
      List.count computeCriticalMsg
        (CheckSystemEvents_calls ml_head_tracking_h
          (SystemNotificationsApp.new ml_head_tracking_h 0) (batteryReading 5)) = 1 ∧
      (CheckSystemEvents ml_head_tracking_h (SystemNotificationsApp.new ml_head_tracking_h 0)
        (batteryReading 5)).compute_critical_ = true) ∧
    (computeBatteryEvents (SystemNotificationsApp.new ml_head_tracking_h 0).compute_critical_
        (batteryReading 6).GetComputePackBatteryLevel = [] ∧
      List.count computeCriticalMsg
        (CheckSystemEvents_calls ml_head_tracking_h
          (SystemNotificationsApp.new ml_head_tracking_h 0) (batteryReading 6)) = 0 ∧
      (CheckSystemEvents ml_head_tracking_h (SystemNotificationsApp.new ml_head_tracking_h 0)
        (batteryReading 6)).compute_critical_ = false) :=
  ⟨(compute_battery_threshold ml_head_tracking_h
      (SystemNotificationsApp.new ml_head_tracking_h 0) (batteryReading 5) rfl).1 (by decide),
   (compute_battery_threshold ml_head_tracking_h
      (SystemNotificationsApp.new ml_head_tracking_h 0) (batteryReading 6) rfl).2 (by decide)⟩

/-- C21: a properties-changed callback that reports the connection state
`Connected` stores `Connected` but appends the event "Controller has been
disconnected.", and one that reports `Disconnected` stores `Disconnected` but
appends "Controller has been connected.": the two event strings are swapped
with respect to the state that is stored and that
`GetMLPowerManagerConnectionStateString` displays. -/
theorem connection_event_contradicts_state :
    (OnControllerPropertiesChange
        [⟨MLPowerManagerPropertyType_ConnectionState, MLPowerManagerConnectionState_Connected⟩]
        (some (SystemNotificationsApp.new ml_head_tracking_h 0))).map
      (fun app => (app.controller_connection_state_, app.events_)) =
      some (MLPowerManagerConnectionState_Connected, ["Controller has been disconnected.\n"]) ∧
    (OnControllerPropertiesChange
        [⟨MLPowerManagerPropertyType_ConnectionState,
          MLPowerManagerConnectionState_Disconnected⟩]
        (some (SystemNotificationsApp.new ml_head_tracking_h 0))).map
      (fun app => (app.controller_connection_state_, app.events_)) =
      some (MLPowerManagerConnectionState_Disconnected, ["Controller has been connected.\n"]) ∧
    GetMLPowerManagerConnectionStateString MLPowerManagerConnectionState_Connected =
      "Connected." := by
  decide

/-- C22: for the states Normal, DisabledWhileCharging and Standby the
power-state callback stores the state and makes one `AddEvent` call, with a
message other than the invalid-state one; for every other value it makes one
`AddEvent` call with the invalid-state message and leaves
`controller_power_state_` as it was.  No other member changes. -/
theorem power_state_callback (app : SystemNotificationsApp) (state : MLPowerManagerPowerState) :
    ((state = MLPowerManagerPowerState_Normal ∨
        state = MLPowerManagerPowerState_DisabledWhileCharging ∨
        state = MLPowerManagerPowerState_Standby) →
      ∃ msg, msg ≠ invalidPowerStateMsg ∧
        OnControllerPowerStateChange state (some app) =
          some { app with events_ := AddEvent msg app.events_
                          controller_power_state_ := state }) ∧
    (¬ (state = MLPowerManagerPowerState_Normal ∨
        state = MLPowerManagerPowerState_DisabledWhileCharging ∨
        state = MLPowerManagerPowerState_Standby) →
      OnControllerPowerStateChange state (some app) =
        some { app with events_ := AddEvent invalidPowerStateMsg app.events_ }) ∧
    OnControllerPowerStateChange MLPowerManagerPowerState_None (some app) =
      some { app with events_ := AddEvent invalidPowerStateMsg app.events_ } ∧
    OnControllerPowerStateChange MLPowerManagerPowerState_Sleep (some app) =
      some { app with events_ := AddEvent invalidPowerStateMsg app.events_ } ∧
    OnControllerPowerStateChange MLPowerManagerPowerState_Ensure32Bits (some app) =
      some { app with events_ := AddEvent invalidPowerStateMsg app.events_ } := by
  refine ⟨?_, ?_, rfl, rfl, rfl⟩
  · intro h
    rcases h with h | h | h
    · subst h
      exact ⟨"Controller entered normal power state.\n", by decide, rfl⟩
    · subst h
      exact ⟨"Controller cannot be used while connected to charging for this SKU.\n",
        by decide, rfl⟩
    · subst h
      exact ⟨"Controller entered standby power state.\n", by decide, rfl⟩
  · intro h
    simp only [not_or] at h
    simp only [OnControllerPowerStateChange, if_neg h.1, if_neg h.2.1, if_neg h.2.2]

/-- One `AddEvent` keeps a log of at most eleven entries at most eleven entries long. -/
theorem AddEvent_length_le (m : String) (log : List String)
    (h : log.length ≤ SYS_NUM_EVENTS + 1) : (AddEvent m log).length ≤ SYS_NUM_EVENTS + 1 := by
  unfold AddEvent
  by_cases hgt : log.length > SYS_NUM_EVENTS
  · rw [if_pos hgt]
    simp only [List.length_append, List.length_tail, List.length_singleton]
    omega
  · rw [if_neg hgt]
    simp only [List.length_append, List.length_singleton]
    omega

/-- A run of `AddEvent` calls keeps a log of at most eleven entries at most eleven entries
long. -/
theorem AddEvents_length_le (calls : List String) :
    ∀ log : List String, log.length ≤ SYS_NUM_EVENTS + 1 →
      (AddEvents log calls).length ≤ SYS_NUM_EVENTS + 1 := by
  induction calls with
  | nil => intro log h; exact h
  | cons c cs ih => intro log h; exact ih (AddEvent c log) (AddEvent_length_le c log h)

/-- C24: after any run of `AddEvent` calls on the empty log, `events_` has at
most `SYS_NUM_EVENTS + 1 = 11` entries, and eleven appends reach the length
11. -/
theorem AddEvents_length_bound (calls : List String) :
    (AddEvents [] calls).length ≤ SYS_NUM_EVENTS + 1 ∧
    SYS_NUM_EVENTS + 1 = 11 ∧
    ∃ eleven : List String, eleven.length = 11 ∧ (AddEvents [] eleven).length = 11 := by
  refine ⟨AddEvents_length_le calls [] (Nat.zero_le _), rfl, List.replicate 11 "e", ?_, ?_⟩ <;>
    decide

end SystemNotifications

namespace WorldCamera

/-! ## Theorems on `WorldCameraApp` -/

/-- A value in the `int64_t` range is stored unchanged. -/
theorem int64_of_inInt64 {x : Int} (h : inInt64 x) : int64 x = x := by
  unfold inInt64 INT64_MIN INT64_MAX at h
  unfold int64 wrapSigned
  norm_num
  omega

/-- Reading a map at a key after `m[k]` was evaluated. -/
theorem Map.touch_apply {K V : Type} [DecidableEq K] (m : Map K V) (k j : K) (dflt : V) :
    Map.touch m k dflt j = if j = k then some ((m k).getD dflt) else m j := rfl

/-- Reading a map at a key after `m[k] = v`. -/
theorem Map.assign_apply {K V : Type} [DecidableEq K] (m : Map K V) (k j : K) (v : V) :
    Map.assign m k v j = if j = k then some v else m j := rfl

/-- Evaluating `m[k]` on a present key leaves the map as it was. -/
theorem Map.touch_of_present {K V : Type} [DecidableEq K] (m : Map K V) (k : K) (dflt v : V)
    (h : m k = some v) : Map.touch m k dflt = m := by
  funext j
  rw [Map.touch_apply]
  split_ifs with hj
  · rw [hj, h]; rfl
  · rfl

/-- A boolean map entry reads as `true` exactly when it is present and `true`. -/
theorem Map.read_eq_true {K : Type} (m : Map K Bool) (k : K) :
    Map.read m k false = true ↔ m k = some true := by
  unfold Map.read
  cases m k <;> simp

/-- A boolean map entry reads as `false` when it is absent or `false`. -/
theorem Map.read_eq_false {K : Type} (m : Map K Bool) (k : K) :
    Map.read m k false = false ↔ ¬ m k = some true := by
  unfold Map.read
  cases m k <;> simp

/-- Assigning after `m[k]` was evaluated is the same as assigning directly. -/
theorem Map.assign_touch {K V : Type} [DecidableEq K] (m : Map K V) (k : K) (dflt v : V) :
    Map.assign (Map.touch m k dflt) k v = Map.assign m k v := by
  funext j
  simp only [Map.assign_apply, Map.touch_apply]
  split_ifs <;> rfl

/-- The map `last_frame_num_` after one frame was processed. -/
theorem checkFrame_last_frame_num (app : WorldCameraApp) (k : CameraIdModePair) (n : Int) :
    (checkFrame app k n).last_frame_num_ =
      if Enabled app k ∧ 0 ≤ n then
        if app.last_frame_num_.read k 0 ≠ -1 ∧ n = app.last_frame_num_.read k 0 then
          app.last_frame_num_.touch k 0
        else app.last_frame_num_.assign k n
      else app.last_frame_num_ := by
  by_cases hn : 0 ≤ n
  · have hn' : ¬ n < 0 := not_lt.mpr hn
    by_cases hc : app.available_cameras_ k.1 = some true <;>
    by_cases hm : app.available_modes_ k.2 = some true <;>
    by_cases hl : app.last_frame_num_.read k 0 = -1 <;>
    by_cases hd : 1 < frame_num_diff (app.last_frame_num_.read k 0) n <;>
    by_cases he : n = app.last_frame_num_.read k 0 <;>
    first
      | subst he
        simp [checkFrame, Enabled, Map.read_eq_false, hc, hm, hn, hn', hl, hd, Map.assign_touch]
      | simp [checkFrame, Enabled, Map.read_eq_false, hc, hm, hn, hn', hl, hd, he,
          Map.assign_touch]
  · have hn' : n < 0 := not_le.mp hn
    by_cases hc : app.available_cameras_ k.1 = some true <;>
    by_cases hm : app.available_modes_ k.2 = some true <;>
    simp [checkFrame, Enabled, Map.read_eq_false, hc, hm, hn, hn']

/-- The map `dropped_frame_count` after one frame was processed. -/
theorem checkFrame_dropped_frame_count (app : WorldCameraApp) (k : CameraIdModePair) (n : Int) :
    (checkFrame app k n).dropped_frame_count =
      if Enabled app k ∧ 0 ≤ n ∧ app.last_frame_num_.read k 0 ≠ -1 ∧
          n ≠ app.last_frame_num_.read k 0 ∧
          1 < frame_num_diff (app.last_frame_num_.read k 0) n then
        app.dropped_frame_count.assign k
          (int32 (int64 (app.dropped_frame_count.read k 0 +
            frame_num_diff (app.last_frame_num_.read k 0) n)))
      else app.dropped_frame_count := by
  by_cases hn : 0 ≤ n
  · have hn' : ¬ n < 0 := not_lt.mpr hn
    by_cases hc : app.available_cameras_ k.1 = some true <;>
    by_cases hm : app.available_modes_ k.2 = some true <;>
    by_cases hl : app.last_frame_num_.read k 0 = -1 <;>
    by_cases hd : 1 < frame_num_diff (app.last_frame_num_.read k 0) n <;>
    by_cases he : n = app.last_frame_num_.read k 0 <;>
    first
      | subst he
        simp [checkFrame, Enabled, Map.read_eq_false, hc, hm, hn, hn', hl, hd]
      | simp [checkFrame, Enabled, Map.read_eq_false, hc, hm, hn, hn', hl, hd, he]
  · have hn' : n < 0 := not_le.mp hn
    by_cases hc : app.available_cameras_ k.1 = some true <;>
    by_cases hm : app.available_modes_ k.2 = some true <;>
    simp [checkFrame, Enabled, Map.read_eq_false, hc, hm, hn, hn']

/-- The map `available_cameras_` after one frame was processed. -/
theorem checkFrame_available_cameras (app : WorldCameraApp) (k : CameraIdModePair) (n : Int) :
    (checkFrame app k n).available_cameras_ = app.available_cameras_.touch k.1 false := by
  by_cases hn : 0 ≤ n
  · have hn' : ¬ n < 0 := not_lt.mpr hn
    by_cases hc : app.available_cameras_ k.1 = some true <;>
    by_cases hm : app.available_modes_ k.2 = some true <;>
    by_cases hl : app.last_frame_num_.read k 0 = -1 <;>
    by_cases hd : 1 < frame_num_diff (app.last_frame_num_.read k 0) n <;>
    by_cases he : n = app.last_frame_num_.read k 0 <;>
    first
      | subst he
        simp [checkFrame, Enabled, Map.read_eq_false, hc, hm, hn, hn', hl, hd]
      | simp [checkFrame, Enabled, Map.read_eq_false, hc, hm, hn, hn', hl, hd, he]
  · have hn' : n < 0 := not_le.mp hn
    by_cases hc : app.available_cameras_ k.1 = some true <;>
    by_cases hm : app.available_modes_ k.2 = some true <;>
    simp [checkFrame, Enabled, Map.read_eq_false, hc, hm, hn, hn']

/-- The map `available_modes_` after one frame was processed: it is indexed
only when the camera of the frame is switched on. -/
theorem checkFrame_available_modes (app : WorldCameraApp) (k : CameraIdModePair) (n : Int) :
    (checkFrame app k n).available_modes_ =
      if app.available_cameras_ k.1 = some true then app.available_modes_.touch k.2 false
      else app.available_modes_ := by
  by_cases hn : 0 ≤ n
  · have hn' : ¬ n < 0 := not_lt.mpr hn
    by_cases hc : app.available_cameras_ k.1 = some true <;>
    by_cases hm : app.available_modes_ k.2 = some true <;>
    by_cases hl : app.last_frame_num_.read k 0 = -1 <;>
    by_cases hd : 1 < frame_num_diff (app.last_frame_num_.read k 0) n <;>
    by_cases he : n = app.last_frame_num_.read k 0 <;>
    first
      | subst he
        simp [checkFrame, Enabled, Map.read_eq_false, hc, hm, hn, hn', hl, hd]
      | simp [checkFrame, Enabled, Map.read_eq_false, hc, hm, hn, hn', hl, hd, he]
  · have hn' : n < 0 := not_le.mp hn
    by_cases hc : app.available_cameras_ k.1 = some true <;>
    by_cases hm : app.available_modes_ k.2 = some true <;>
    simp [checkFrame, Enabled, Map.read_eq_false, hc, hm, hn, hn']

/-- The settings are not touched by frame processing. -/
theorem checkFrame_settings (app : WorldCameraApp) (k : CameraIdModePair) (n : Int) :
    (checkFrame app k n).world_camera_settings_ = app.world_camera_settings_ := by
  by_cases hn : 0 ≤ n
  · have hn' : ¬ n < 0 := not_lt.mpr hn
    by_cases hc : app.available_cameras_ k.1 = some true <;>
    by_cases hm : app.available_modes_ k.2 = some true <;>
    by_cases hl : app.last_frame_num_.read k 0 = -1 <;>
    by_cases hd : 1 < frame_num_diff (app.last_frame_num_.read k 0) n <;>
    by_cases he : n = app.last_frame_num_.read k 0 <;>
    first
      | subst he
        simp [checkFrame, Enabled, Map.read_eq_false, hc, hm, hn, hn', hl, hd]
      | simp [checkFrame, Enabled, Map.read_eq_false, hc, hm, hn, hn', hl, hd, he]
  · have hn' : n < 0 := not_le.mp hn
    by_cases hc : app.available_cameras_ k.1 = some true <;>
    by_cases hm : app.available_modes_ k.2 = some true <;>
    simp [checkFrame, Enabled, Map.read_eq_false, hc, hm, hn, hn']

/-- Processing a frame enables or disables no key. -/
theorem checkFrame_enabled (app : WorldCameraApp) (k j : CameraIdModePair) (n : Int) :
    Enabled (checkFrame app k n) j ↔ Enabled app j := by
  unfold Enabled
  rw [checkFrame_available_cameras, checkFrame_available_modes]
  have hc : Map.touch app.available_cameras_ k.1 false j.1 = some true ↔
      app.available_cameras_ j.1 = some true := by
    rw [Map.touch_apply]
    split_ifs with h
    · rw [h]; cases app.available_cameras_ k.1 <;> simp
    · rfl
  have hm : Map.touch app.available_modes_ k.2 false j.2 = some true ↔
      app.available_modes_ j.2 = some true := by
    rw [Map.touch_apply]
    split_ifs with h
    · rw [h]; cases app.available_modes_ k.2 <;> simp
    · rfl
  split_ifs
  · rw [hc, hm]
  · rw [hc]

/-- Processing one `int64_t` frame keeps the tracker invariant. -/
theorem checkFrame_invariant (app : WorldCameraApp) (k : CameraIdModePair) (n : Int)
    (hn : inInt64 n) (h : TrackerInvariant app) : TrackerInvariant (checkFrame app k n) := by
  obtain ⟨h1, h2⟩ := h
  have hmax : n ≤ INT64_MAX := hn.2
  refine ⟨?_, ?_⟩
  · intro j v hv
    rw [checkFrame_last_frame_num] at hv
    split_ifs at hv with ha hb
    · rw [Map.touch_apply] at hv
      split_ifs at hv with hj
      · cases hk : app.last_frame_num_ k with
        | none =>
          rw [hk] at hv
          simp at hv
          subst hv
          unfold INT64_MAX
          omega
        | some w =>
          rw [hk] at hv
          simp at hv
          subst hv
          exact h1 k w hk
      · exact h1 j v hv
    · rw [Map.assign_apply] at hv
      split_ifs at hv with hj
      · simp at hv
        subst hv
        exact ⟨Or.inr ha.2, hmax⟩
      · exact h1 j v hv
    · exact h1 j v hv
  · intro j hj
    rw [checkFrame_enabled] at hj
    have hold := h2 j hj
    rw [checkFrame_last_frame_num]
    split_ifs
    · rw [Map.touch_apply]
      split_ifs <;> simp [hold]
    · rw [Map.assign_apply]
      split_ifs <;> simp [hold]
    · exact hold

/-- Processing a batch of `int64_t` frames keeps the tracker invariant. -/
theorem CheckDroppedFrames_invariant (frames : List (CameraIdModePair × Int)) :
    ∀ app : WorldCameraApp, (∀ e ∈ frames, inInt64 e.2) → TrackerInvariant app →
      TrackerInvariant (CheckDroppedFrames app frames) := by
  induction frames with
  | nil => intro app _ h; exact h
  | cons e rest ih =>
    intro app hf h
    have he : inInt64 e.2 := hf e (List.mem_cons_self _ _)
    have hrest : ∀ x ∈ rest, inInt64 x.2 := fun x hx => hf x (List.mem_cons_of_mem _ hx)
    exact ih (checkFrame app e.1 e.2) hrest (checkFrame_invariant app e.1 e.2 he h)

/-- The constructor establishes the tracker invariant. -/
theorem new_invariant (settings : MLWorldCameraSettings) :
    TrackerInvariant (WorldCameraApp.new settings) := by
  refine ⟨?_, ?_⟩
  · intro k v hv
    simp only [WorldCameraApp.new] at hv
    split_ifs at hv
    simp at hv
    subst hv
    unfold INT64_MAX
    omega
  · intro k hk
    obtain ⟨hc, hm⟩ := hk
    simp only [WorldCameraApp.new] at hc hm ⊢
    simp [hc, hm]

/-- The method `OnPause` keeps the tracker invariant. -/
theorem OnPause_invariant (app : WorldCameraApp) (h : TrackerInvariant app) :
    TrackerInvariant (OnPause app) := by
  obtain ⟨-, h2⟩ := h
  refine ⟨?_, ?_⟩
  · intro k v hv
    simp only [OnPause] at hv
    cases hk : app.last_frame_num_ k with
    | none => rw [hk] at hv; simp at hv
    | some w =>
      rw [hk] at hv
      simp at hv
      subst hv
      unfold INT64_MAX
      omega
  · intro k hk
    have hold := h2 k hk
    simp only [OnPause]
    cases hk' : app.last_frame_num_ k with
    | none => exact absurd hk' hold
    | some w => simp

/-- A click on a mode checkbox keeps the tracker invariant. -/
theorem toggleMode_invariant (app : WorldCameraApp) (m : MLWorldCameraFrameType)
    (h : TrackerInvariant app) : TrackerInvariant (toggleMode app m) := by
  obtain ⟨h1, h2⟩ := h
  unfold toggleMode
  cases hb : app.available_modes_ m with
  | none => exact ⟨h1, h2⟩
  | some b =>
    refine ⟨?_, ?_⟩
    · intro k v hv
      simp only [UpdateCameraMode] at hv
      split_ifs at hv
      · simp at hv
        subst hv
        unfold INT64_MAX
        omega
      · exact h1 k v hv
    · intro k hk
      obtain ⟨hc, hm⟩ := hk
      simp only [UpdateCameraMode] at hc hm ⊢
      by_cases hkm : k.2 = m
      · subst hkm
        simp [hc]
      · rw [Map.assign_apply, if_neg hkm] at hm
        simp only [hkm, false_and, if_false]
        exact h2 k ⟨hc, hm⟩

/-- A click on a camera checkbox keeps the tracker invariant. -/
theorem toggleCamera_invariant (app : WorldCameraApp) (c : MLWorldCameraIdentifier)
    (h : TrackerInvariant app) : TrackerInvariant (toggleCamera app c) := by
  obtain ⟨h1, h2⟩ := h
  unfold toggleCamera
  cases hb : app.available_cameras_ c with
  | none => exact ⟨h1, h2⟩
  | some b =>
    refine ⟨?_, ?_⟩
    · intro k v hv
      simp only [UpdateCameraId] at hv
      split_ifs at hv
      · simp at hv
        subst hv
        unfold INT64_MAX
        omega
      · exact h1 k v hv
    · intro k hk
      obtain ⟨hc, hm⟩ := hk
      simp only [UpdateCameraId] at hc hm ⊢
      by_cases hkc : k.1 = c
      · subst hkc
        simp [hm]
      · rw [Map.assign_apply, if_neg hkc] at hc
        simp only [hkc, false_and, if_false]
        exact h2 k ⟨hc, hm⟩

/-- Every reachable state satisfies the tracker invariant. -/
theorem Reachable.invariant {app : WorldCameraApp} (h : Reachable app) : TrackerInvariant app := by
  induction h with
  | new settings => exact new_invariant settings
  | onStart _ ih => exact ih
  | onPause _ ih => exact OnPause_invariant _ ih
  | frames processed_cameras _ hw ih => exact CheckDroppedFrames_invariant _ _ hw.2 ih
  | mode m _ ih => exact toggleMode_invariant _ m ih
  | camera c _ ih => exact toggleCamera_invariant _ c ih

/-- A batch of one frame is one run of the loop body. -/
theorem CheckDroppedFrames_single (app : WorldCameraApp) (k : CameraIdModePair) (n : Int) :
    CheckDroppedFrames app [(k, n)] = checkFrame app k n := rfl

/-- C2: after frame 10, frame 13 on the same enabled key raises
`dropped_frame_count` from 0 to 3, the full gap, although only the two frames
11 and 12 were skipped: the code adds `frame_num_diff`, not `frame_num_diff - 1`. -/
theorem dropped_count_adds_full_gap :
    (CheckDroppedFrames startedApp [(leftNormal, 10)]).last_frame_num_ leftNormal = some 10 ∧
    (CheckDroppedFrames startedApp [(leftNormal, 10)]).dropped_frame_count leftNormal = some 0 ∧
    (CheckDroppedFrames (CheckDroppedFrames startedApp [(leftNormal, 10)])
      [(leftNormal, 13)]).dropped_frame_count leftNormal = some 3 ∧
    (3 : Int) ≠ 13 - 10 - 1 := by
  decide

/-- C5: in a reachable state, for a frame number `new` with
`0 <= new < last_frame_num_`, the three intermediate values of the rollover
computation are `int64_t` values, so `frame_num_diff` is the exact sum. -/
theorem wraparound_gap_no_overflow (app : WorldCameraApp) (h : Reachable app)
    (k : CameraIdModePair) (last new : Int) (hl : app.last_frame_num_ k = some last)
    (h0 : 0 ≤ new) (hlt : new < last) :
    inInt64 (INT64_MAX - last) ∧ inInt64 (INT64_MAX - last + new) ∧
    inInt64 (INT64_MAX - last + new + 1) ∧
    frame_num_diff last new = INT64_MAX - last + new + 1 := by
  have hr := (Reachable.invariant h).1 k last hl
  have hmax : last ≤ INT64_MAX := hr.2
  have a1 : inInt64 (INT64_MAX - last) := by
    unfold inInt64 INT64_MIN; unfold INT64_MAX at hmax ⊢; omega
  have a2 : inInt64 (INT64_MAX - last + new) := by
    unfold inInt64 INT64_MIN; unfold INT64_MAX at hmax ⊢; omega
  have a3 : inInt64 (INT64_MAX - last + new + 1) := by
    unfold inInt64 INT64_MIN; unfold INT64_MAX at hmax ⊢; omega
  refine ⟨a1, a2, a3, ?_⟩
  unfold frame_num_diff
  rw [if_pos hlt]
  simp only []
  rw [int64_of_inInt64 a1, int64_of_inInt64 a2, int64_of_inInt64 a3]

/-- Witness of the rollover bound: the state reached by a first frame
`INT64_MAX - 1`, followed by frame 1. -/
theorem wraparound_gap_no_overflow_witness :
    inInt64 (INT64_MAX - (INT64_MAX - 1)) ∧ inInt64 (INT64_MAX - (INT64_MAX - 1) + 1) ∧
    inInt64 (INT64_MAX - (INT64_MAX - 1) + 1 + 1) ∧
    frame_num_diff (INT64_MAX - 1) 1 = INT64_MAX - (INT64_MAX - 1) + 1 + 1 :=
  wraparound_gap_no_overflow (CheckDroppedFrames startedApp [(leftNormal, INT64_MAX - 1)])
    (Reachable.frames _ (Reachable.onStart (Reachable.new _)) (by decide))
    leftNormal (INT64_MAX - 1) 1 (by decide) (by decide) (by decide)

/-- C6: in a reachable state with `last_frame_num_ = last`, for an `int64_t`
frame number `new >= 0` the gap is `(INT64_MAX - last) + new + 1` when
`new < last`, and `new - last` when `new > last` and `last` is not the
sentinel. -/
theorem wraparound_formula (app : WorldCameraApp) (h : Reachable app)
    (k : CameraIdModePair) (last new : Int) (hl : app.last_frame_num_ k = some last)
    (h0 : 0 ≤ new) (hmax : new ≤ INT64_MAX) :
    (new < last → frame_num_diff last new = (INT64_MAX - last) + new + 1) ∧
    (last ≠ -1 → last < new → frame_num_diff last new = new - last) := by
  have hr := (Reachable.invariant h).1 k last hl
  constructor
  · intro hlt
    have a1 : inInt64 (INT64_MAX - last) := by
      unfold inInt64 INT64_MIN; unfold INT64_MAX at hr ⊢; omega
    have a2 : inInt64 (INT64_MAX - last + new) := by
      unfold inInt64 INT64_MIN; unfold INT64_MAX at hr ⊢; omega
    have a3 : inInt64 (INT64_MAX - last + new + 1) := by
      unfold inInt64 INT64_MIN; unfold INT64_MAX at hr ⊢; omega
    unfold frame_num_diff
    rw [if_pos hlt]
    simp only []
    rw [int64_of_inInt64 a1, int64_of_inInt64 a2, int64_of_inInt64 a3]
  · intro hne hlt
    have a : inInt64 (new - last) := by
      unfold inInt64 INT64_MIN; unfold INT64_MAX at hr hmax ⊢; omega
    unfold frame_num_diff
    rw [if_neg (by omega), int64_of_inInt64 a]

/-- Witness of the gap formula at the state reached by a first frame 10:
frame 9 gives the gap `INT64_MAX`, frame 13 gives the gap 3. -/
theorem wraparound_formula_witness :
    frame_num_diff 10 9 = (INT64_MAX - 10) + 9 + 1 ∧ frame_num_diff 10 13 = 13 - 10 :=
  ⟨(wraparound_formula (CheckDroppedFrames startedApp [(leftNormal, 10)])
      (Reachable.frames _ (Reachable.onStart (Reachable.new _)) (by decide))
      leftNormal 10 9 (by decide) (by decide) (by decide)).1 (by decide),
   (wraparound_formula (CheckDroppedFrames startedApp [(leftNormal, 10)])
      (Reachable.frames _ (Reachable.onStart (Reachable.new _)) (by decide))
      leftNormal 10 13 (by decide) (by decide) (by decide)).2 (by decide) (by decide)⟩

/-- C7: a batch whose frame numbers are all negative changes neither
`last_frame_num_` nor `dropped_frame_count`, for any key and in any state. -/
theorem invalid_frame_rejected (frames : List (CameraIdModePair × Int)) :
    ∀ app : WorldCameraApp, (∀ e ∈ frames, e.2 < 0) →
      (CheckDroppedFrames app frames).last_frame_num_ = app.last_frame_num_ ∧
      (CheckDroppedFrames app frames).dropped_frame_count = app.dropped_frame_count := by
  induction frames with
  | nil => intro app _; exact ⟨rfl, rfl⟩
  | cons e rest ih =>
    intro app hf
    have he : e.2 < 0 := hf e (List.mem_cons_self _ _)
    have hrest : ∀ x ∈ rest, x.2 < 0 := fun x hx => hf x (List.mem_cons_of_mem _ hx)
    have hstep := ih (checkFrame app e.1 e.2) hrest
    have hneg : ¬ (0 ≤ e.2) := by omega
    have e1 : (checkFrame app e.1 e.2).last_frame_num_ = app.last_frame_num_ := by
      rw [checkFrame_last_frame_num, if_neg (fun hh => hneg hh.2)]
    have e2 : (checkFrame app e.1 e.2).dropped_frame_count = app.dropped_frame_count := by
      rw [checkFrame_dropped_frame_count, if_neg (fun hh => hneg hh.2.1)]
    constructor
    · exact hstep.1.trans e1
    · exact hstep.2.trans e2

/-- Witness of the rejection of invalid frames: frame `-1` for a key that has
already seen frame 5. -/
theorem invalid_frame_rejected_witness :
    (CheckDroppedFrames (CheckDroppedFrames startedApp [(leftNormal, 5)])
        [(leftNormal, -1)]).last_frame_num_ =
      (CheckDroppedFrames startedApp [(leftNormal, 5)]).last_frame_num_ ∧
    (CheckDroppedFrames (CheckDroppedFrames startedApp [(leftNormal, 5)])
        [(leftNormal, -1)]).dropped_frame_count =
      (CheckDroppedFrames startedApp [(leftNormal, 5)]).dropped_frame_count :=
  invalid_frame_rejected [(leftNormal, -1)] (CheckDroppedFrames startedApp [(leftNormal, 5)])
    (by decide)

/-- C8: in a reachable state, a frame `n >= 0` on an enabled key processed
directly after `OnPause` sets the key's `last_frame_num_` to `n` and leaves
`dropped_frame_count` as it was before the pause. -/
theorem priming_after_reset (app : WorldCameraApp) (h : Reachable app)
    (k : CameraIdModePair) (hk : Enabled app k) (n : Int) (hn : 0 ≤ n) :
    (CheckDroppedFrames (OnPause app) [(k, n)]).last_frame_num_ k = some n ∧
    (CheckDroppedFrames (OnPause app) [(k, n)]).dropped_frame_count =
      app.dropped_frame_count := by
  have hpresent := (Reachable.invariant h).2 k hk
  have hk' : Enabled (OnPause app) k := hk
  have hread : (OnPause app).last_frame_num_.read k 0 = -1 := by
    simp only [OnPause, Map.read]
    cases hv : app.last_frame_num_ k with
    | none => exact absurd hv hpresent
    | some w => rfl
  rw [CheckDroppedFrames_single]
  constructor
  · rw [checkFrame_last_frame_num, if_pos ⟨hk', hn⟩, if_neg (fun hh => hh.1 hread),
      Map.assign_apply, if_pos rfl]
  · rw [checkFrame_dropped_frame_count, if_neg (fun hh => hh.2.2.1 hread)]
    rfl

/-- Witness of priming after a reset: frame 5, `OnPause`, frame 5. -/
theorem priming_after_reset_witness :
    (CheckDroppedFrames (OnPause (CheckDroppedFrames startedApp [(leftNormal, 5)]))
        [(leftNormal, 5)]).last_frame_num_ leftNormal = some 5 ∧
    (CheckDroppedFrames (OnPause (CheckDroppedFrames startedApp [(leftNormal, 5)]))
        [(leftNormal, 5)]).dropped_frame_count =
      (CheckDroppedFrames startedApp [(leftNormal, 5)]).dropped_frame_count :=
  priming_after_reset (CheckDroppedFrames startedApp [(leftNormal, 5)])
    (Reachable.frames _ (Reachable.onStart (Reachable.new _)) (by decide))
    leftNormal (by decide) 5 (by decide)

/-- C9: when a key's `last_frame_num_` is `last >= 0`, processing a frame with
that same number changes neither `dropped_frame_count` nor `last_frame_num_`. -/
theorem duplicate_frame_no_effect (app : WorldCameraApp) (k : CameraIdModePair) (last : Int)
    (hl : app.last_frame_num_ k = some last) (h0 : 0 ≤ last) :
    (CheckDroppedFrames app [(k, last)]).dropped_frame_count = app.dropped_frame_count ∧
    (CheckDroppedFrames app [(k, last)]).last_frame_num_ = app.last_frame_num_ ∧
    (CheckDroppedFrames app [(k, last)]).last_frame_num_ k = some last := by
  have hread : app.last_frame_num_.read k 0 = last := by
    simp [Map.read, hl]
  have hlast : (checkFrame app k last).last_frame_num_ = app.last_frame_num_ := by
    rw [checkFrame_last_frame_num]
    split_ifs with ha hb
    · exact Map.touch_of_present _ _ _ _ hl
    · exact absurd ⟨by rw [hread]; omega, hread.symm⟩ hb
    · rfl
  rw [CheckDroppedFrames_single]
  refine ⟨?_, hlast, ?_⟩
  · rw [checkFrame_dropped_frame_count, if_neg (fun hh => hh.2.2.2.1 hread.symm)]
  · rw [hlast, hl]

/-- Witness of the duplicate case: frame 7 received twice. -/
theorem duplicate_frame_no_effect_witness :
    (CheckDroppedFrames (CheckDroppedFrames startedApp [(leftNormal, 7)])
        [(leftNormal, 7)]).dropped_frame_count =
      (CheckDroppedFrames startedApp [(leftNormal, 7)]).dropped_frame_count ∧
    (CheckDroppedFrames (CheckDroppedFrames startedApp [(leftNormal, 7)])
        [(leftNormal, 7)]).last_frame_num_ =
      (CheckDroppedFrames startedApp [(leftNormal, 7)]).last_frame_num_ ∧
    (CheckDroppedFrames (CheckDroppedFrames startedApp [(leftNormal, 7)])
        [(leftNormal, 7)]).last_frame_num_ leftNormal = some 7 :=
  duplicate_frame_no_effect (CheckDroppedFrames startedApp [(leftNormal, 7)]) leftNormal 7
    (by decide) (by decide)

/-- C10: after frame 10, the out-of-order frame 9 on the same enabled key takes
the rollover branch with `frame_num_diff = INT64_MAX`; the sum stored in the
`int` counter is `-1`, so `dropped_frame_count` falls from 0 to a negative
value.  The same happens without any backward step when the frame number
jumps by `2 ^ 31`. -/
theorem dropped_count_becomes_negative :
    (CheckDroppedFrames startedApp [(leftNormal, 10)]).dropped_frame_count leftNormal = some 0 ∧
    frame_num_diff 10 9 = INT64_MAX ∧
    (CheckDroppedFrames (CheckDroppedFrames startedApp [(leftNormal, 10)])
      [(leftNormal, 9)]).dropped_frame_count leftNormal = some (-1) ∧
    (CheckDroppedFrames (CheckDroppedFrames startedApp [(leftNormal, 0)])
      [(leftNormal, 2147483648)]).dropped_frame_count leftNormal = some (-2147483648) ∧
    WellFormedFrames [(leftNormal, 10)] ∧ WellFormedFrames [(leftNormal, 9)] ∧
    WellFormedFrames [(leftNormal, 0)] ∧ WellFormedFrames [(leftNormal, 2147483648)] := by
  decide

/-- A value in the `int` range is stored unchanged. -/
theorem int32_of_inInt32 {x : Int} (h : inInt32 x) : int32 x = x := by
  unfold inInt32 at h
  unfold int32 wrapSigned
  norm_num
  omega

/-- Processing a frame leaves the `last_frame_num_` entry of every other key as it was. -/
theorem checkFrame_last_of_ne (app : WorldCameraApp) (k j : CameraIdModePair) (n : Int)
    (hj : j ≠ k) : (checkFrame app k n).last_frame_num_ j = app.last_frame_num_ j := by
  rw [checkFrame_last_frame_num]
  split_ifs
  · rw [Map.touch_apply, if_neg hj]
  · rw [Map.assign_apply, if_neg hj]
  · rfl

/-- Processing a frame leaves the `dropped_frame_count` entry of every other key as it was. -/
theorem checkFrame_dropped_of_ne (app : WorldCameraApp) (k j : CameraIdModePair) (n : Int)
    (hj : j ≠ k) : (checkFrame app k n).dropped_frame_count j = app.dropped_frame_count j := by
  rw [checkFrame_dropped_frame_count]
  split_ifs
  · rw [Map.assign_apply, if_neg hj]
  · rfl

/-- A batch without the key leaves the key's `last_frame_num_` and
`dropped_frame_count` entries as they were. -/
theorem CheckDroppedFrames_of_not_mem (frames : List (CameraIdModePair × Int))
    (k : CameraIdModePair) :
    ∀ app : WorldCameraApp, k ∉ frames.map Prod.fst →
      (CheckDroppedFrames app frames).last_frame_num_ k = app.last_frame_num_ k ∧
      (CheckDroppedFrames app frames).dropped_frame_count k = app.dropped_frame_count k := by
  induction frames with
  | nil => intro app _; exact ⟨rfl, rfl⟩
  | cons e rest ih =>
    intro app hk
    simp only [List.map_cons, List.mem_cons, not_or] at hk
    have hstep := ih (checkFrame app e.1 e.2) hk.2
    have h1 := checkFrame_last_of_ne app e.1 k e.2 hk.1
    have h2 := checkFrame_dropped_of_ne app e.1 k e.2 hk.1
    exact ⟨hstep.1.trans h1, hstep.2.trans h2⟩

/-- Processing a batch enables or disables no key. -/
theorem CheckDroppedFrames_enabled (frames : List (CameraIdModePair × Int))
    (j : CameraIdModePair) :
    ∀ app : WorldCameraApp, Enabled (CheckDroppedFrames app frames) j ↔ Enabled app j := by
  induction frames with
  | nil => intro app; exact Iff.rfl
  | cons e rest ih =>
    intro app
    exact (ih (checkFrame app e.1 e.2)).trans (checkFrame_enabled app e.1 j e.2)

/-- A valid frame on an enabled key leaves the key's `last_frame_num_` at the
frame number. -/
theorem checkFrame_last_self (app : WorldCameraApp) (k : CameraIdModePair) (n : Int)
    (hk : Enabled app k) (hn : 0 ≤ n) : (checkFrame app k n).last_frame_num_ k = some n := by
  rw [checkFrame_last_frame_num, if_pos ⟨hk, hn⟩]
  split_ifs with h
  · rw [Map.touch_apply, if_pos rfl, h.2]
    rfl
  · rw [Map.assign_apply, if_pos rfl]

/-- Processing one frame keeps disabled keys unprimed. -/
theorem checkFrame_disabledUnprimed (app : WorldCameraApp) (k : CameraIdModePair) (n : Int)
    (h : DisabledUnprimed app) : DisabledUnprimed (checkFrame app k n) := by
  intro j hj
  rw [checkFrame_enabled] at hj
  have hold := h j hj
  by_cases hjk : j = k
  · subst hjk
    rw [checkFrame_last_frame_num, if_neg (fun hh => hj hh.1)]
    exact hold
  · rw [checkFrame_last_of_ne app k j n hjk]
    exact hold

/-- Processing a batch keeps disabled keys unprimed. -/
theorem CheckDroppedFrames_disabledUnprimed (frames : List (CameraIdModePair × Int)) :
    ∀ app : WorldCameraApp, DisabledUnprimed app →
      DisabledUnprimed (CheckDroppedFrames app frames) := by
  induction frames with
  | nil => intro app h; exact h
  | cons e rest ih =>
    intro app h
    exact ih (checkFrame app e.1 e.2) (checkFrame_disabledUnprimed app e.1 e.2 h)

/-- After the constructor every key outside the six active pairs is absent. -/
theorem new_disabledUnprimed (settings : MLWorldCameraSettings) :
    DisabledUnprimed (WorldCameraApp.new settings) := by
  intro k hk
  obtain ⟨c, m⟩ := k
  cases c <;> cases m <;>
    simp [WorldCameraApp.new, Enabled, Map.assign_apply, Map.empty] at hk ⊢

/-- A click on a mode checkbox keeps disabled keys unprimed. -/
theorem toggleMode_disabledUnprimed (app : WorldCameraApp) (m : MLWorldCameraFrameType)
    (h : DisabledUnprimed app) : DisabledUnprimed (toggleMode app m) := by
  unfold toggleMode
  cases hb : app.available_modes_ m with
  | none => exact h
  | some b =>
    intro k hk
    simp only [UpdateCameraMode, Enabled] at hk ⊢
    by_cases hc : app.available_cameras_ k.1 = some true
    · by_cases hkm : k.2 = m
      · right
        rw [if_pos ⟨hkm, hc⟩]
      · rw [if_neg (fun hh => hkm hh.1)]
        rw [Map.assign_apply, if_neg hkm] at hk
        exact h k hk
    · rw [if_neg (fun hh => hc hh.2)]
      exact h k (fun hh => hc hh.1)

/-- A click on a camera checkbox keeps disabled keys unprimed. -/
theorem toggleCamera_disabledUnprimed (app : WorldCameraApp) (c : MLWorldCameraIdentifier)
    (h : DisabledUnprimed app) : DisabledUnprimed (toggleCamera app c) := by
  unfold toggleCamera
  cases hb : app.available_cameras_ c with
  | none => exact h
  | some b =>
    intro k hk
    simp only [UpdateCameraId, Enabled] at hk ⊢
    by_cases hm : app.available_modes_ k.2 = some true
    · by_cases hkc : k.1 = c
      · right
        rw [if_pos ⟨hkc, hm⟩]
      · rw [if_neg (fun hh => hkc hh.1)]
        rw [Map.assign_apply, if_neg hkc] at hk
        exact h k hk
    · rw [if_neg (fun hh => hm hh.2)]
      exact h k (fun hh => hm hh.2)

/-- In every reachable state the keys that are not enabled are unprimed. -/
theorem Reachable.disabledUnprimed {app : WorldCameraApp} (h : Reachable app) :
    DisabledUnprimed app := by
  induction h with
  | new settings => exact new_disabledUnprimed settings
  | onStart _ ih => exact ih
  | @onPause a _ ih =>
    intro k _
    simp only [OnPause]
    cases a.last_frame_num_ k <;> simp
  | frames processed_cameras _ _ ih => exact CheckDroppedFrames_disabledUnprimed _ _ ih
  | mode m _ ih => exact toggleMode_disabledUnprimed _ m ih
  | camera c _ ih => exact toggleCamera_disabledUnprimed _ c ih

/-- C11: `OnPause` sets the `last_frame_num_` entry of every key of the map to
`-1`, adds no key, and leaves `dropped_frame_count` and the other members as
they were. -/
theorem OnPause_resets_last_keeps_dropped (app : WorldCameraApp) :
    (∀ k, app.last_frame_num_ k ≠ none → (OnPause app).last_frame_num_ k = some (-1)) ∧
    (∀ k, app.last_frame_num_ k = none → (OnPause app).last_frame_num_ k = none) ∧
    (OnPause app).dropped_frame_count = app.dropped_frame_count ∧
    (OnPause app).available_cameras_ = app.available_cameras_ ∧
    (OnPause app).available_modes_ = app.available_modes_ ∧
    (OnPause app).world_camera_settings_ = app.world_camera_settings_ := by
  refine ⟨?_, ?_, rfl, rfl, rfl, rfl⟩
  · intro k hk
    simp only [OnPause]
    cases hv : app.last_frame_num_ k with
    | none => exact absurd hv hk
    | some v => rfl
  · intro k hk
    simp only [OnPause, hk]
    rfl

/-- C18: in a reachable state with `last_frame_num_ = last >= 0` for a key, a
frame `new > last + 1` whose sum fits the `int` counter raises the key's
`dropped_frame_count` by exactly `new - last`, the full gap, and a frame
`new = last + 1` leaves `dropped_frame_count` unchanged. -/
theorem drop_accounting_adds_full_gap (app : WorldCameraApp) (h : Reachable app)
    (k : CameraIdModePair) (last new : Int) (hl : app.last_frame_num_ k = some last)
    (h0 : 0 ≤ last) (hmax : new ≤ INT64_MAX) :
    (last + 1 < new → inInt32 (app.dropped_frame_count.read k 0 + (new - last)) →
      (CheckDroppedFrames app [(k, new)]).dropped_frame_count.read k 0 =
        app.dropped_frame_count.read k 0 + (new - last)) ∧
    (new = last + 1 →
      (CheckDroppedFrames app [(k, new)]).dropped_frame_count = app.dropped_frame_count) := by
  have hread : app.last_frame_num_.read k 0 = last := by
    simp [Map.read, hl]
  have hen : Enabled app k := by
    by_contra hne
    rcases Reachable.disabledUnprimed h k hne with hnone | hneg
    · rw [hl] at hnone
      cases hnone
    · rw [hl] at hneg
      simp at hneg
      omega
  rw [CheckDroppedFrames_single, checkFrame_dropped_frame_count, hread]
  constructor
  · intro hgap hfits
    have hrange : inInt64 (new - last) := by
      unfold inInt64 INT64_MIN
      unfold INT64_MAX at hmax ⊢
      omega
    have hdiff : frame_num_diff last new = new - last := by
      unfold frame_num_diff
      rw [if_neg (by omega), int64_of_inInt64 hrange]
    have hsum : inInt64 (app.dropped_frame_count.read k 0 + (new - last)) := by
      unfold inInt32 at hfits
      unfold inInt64 INT64_MIN INT64_MAX
      omega
    rw [hdiff, if_pos ⟨hen, by omega, by omega, by omega, by omega⟩, int64_of_inInt64 hsum,
      int32_of_inInt32 hfits]
    simp [Map.read, Map.assign_apply]
  · intro hnext
    have hrange : inInt64 (new - last) := by
      unfold inInt64 INT64_MIN INT64_MAX
      omega
    have hdiff : frame_num_diff last new = 1 := by
      unfold frame_num_diff
      rw [if_neg (by omega), int64_of_inInt64 hrange]
      omega
    rw [hdiff, if_neg (fun hh => by omega)]

/-- Witness of the full-gap accounting: after frame 10, frame 13 adds 3 and
frame 11 adds nothing. -/
theorem drop_accounting_adds_full_gap_witness :
    (CheckDroppedFrames (CheckDroppedFrames startedApp [(leftNormal, 10)])
        [(leftNormal, 13)]).dropped_frame_count.read leftNormal 0 =
      (CheckDroppedFrames startedApp [(leftNormal, 10)]).dropped_frame_count.read leftNormal 0 +
        (13 - 10) ∧
    (CheckDroppedFrames (CheckDroppedFrames startedApp [(leftNormal, 10)])
        [(leftNormal, 11)]).dropped_frame_count =
      (CheckDroppedFrames startedApp [(leftNormal, 10)]).dropped_frame_count :=
  ⟨(drop_accounting_adds_full_gap (CheckDroppedFrames startedApp [(leftNormal, 10)])
      (Reachable.frames _ (Reachable.onStart (Reachable.new _)) (by decide))
      leftNormal 10 13 (by decide) (by decide) (by decide)).1 (by decide) (by decide),
   (drop_accounting_adds_full_gap (CheckDroppedFrames startedApp [(leftNormal, 10)])
      (Reachable.frames _ (Reachable.onStart (Reachable.new _)) (by decide))
      leftNormal 10 11 (by decide) (by decide) (by decide)).2 (by decide)⟩

/-- C19: in any state, after a batch with one entry per key, a key that is
enabled and whose frame in the batch has a number `n >= 0` has
`last_frame_num_ = n`, whatever the previous value was. -/
theorem last_frame_num_tracks_latest (frames : List (CameraIdModePair × Int))
    (k : CameraIdModePair) (n : Int) (hn : 0 ≤ n) :
    ∀ app : WorldCameraApp, Enabled app k → (frames.map Prod.fst).Nodup → (k, n) ∈ frames →
      (CheckDroppedFrames app frames).last_frame_num_ k = some n := by
  induction frames with
  | nil => intro app _ _ hmem; cases hmem
  | cons e rest ih =>
    intro app hk hnodup hmem
    simp only [List.map_cons, List.nodup_cons] at hnodup
    have hstep : CheckDroppedFrames app (e :: rest) =
        CheckDroppedFrames (checkFrame app e.1 e.2) rest := rfl
    rw [hstep]
    rcases List.mem_cons.mp hmem with heq | hrest
    · subst heq
      rw [(CheckDroppedFrames_of_not_mem rest k _ hnodup.1).1]
      exact checkFrame_last_self app k n hk hn
    · exact ih (checkFrame app e.1 e.2) ((checkFrame_enabled app e.1 k e.2).mpr hk)
        hnodup.2 hrest

/-- Witness of the tracking of the latest frame: a batch with frame 5 for the
left camera and frame 7 for the right camera, after the left camera has seen
frame 5 before (a duplicate). -/
theorem last_frame_num_tracks_latest_witness :
    (CheckDroppedFrames (CheckDroppedFrames startedApp [(leftNormal, 5)])
      [(leftNormal, 5), (rightLow, 7)]).last_frame_num_ leftNormal = some 5 :=
  last_frame_num_tracks_latest [(leftNormal, 5), (rightLow, 7)] leftNormal 5 (by decide)
    (CheckDroppedFrames startedApp [(leftNormal, 5)]) (by decide) (by decide) (by decide)

/-- C20: for a non-null struct `MLWorldCameraSettingsInit` sets `version = 1`,
`mode = MLWorldCameraMode_NormalExposure = 2` and
`cameras = MLWorldCameraIdentifier_All = Left | Right | Center = 7`, whatever
the struct held; for a null pointer it does nothing. -/
theorem MLWorldCameraSettingsInit_defaults (settings : MLWorldCameraSettings) :
    MLWorldCameraSettingsInit (some settings) =
      some { version := 1, mode := 2, cameras := 7 } ∧
    MLWorldCameraMode.NormalExposure.toNat = 2 ∧
    MLWorldCameraIdentifier.All.toNat =
      MLWorldCameraIdentifier.Left.toNat ||| MLWorldCameraIdentifier.Right.toNat |||
        MLWorldCameraIdentifier.Center.toNat ∧
    MLWorldCameraIdentifier.All.toNat = 7 ∧
    MLWorldCameraSettingsInit none = none := by
  exact ⟨rfl, rfl, rfl, rfl, rfl⟩

/-- Clearing and setting the bits of `m` in a 32-bit value, bit by bit. -/
theorem testBit_update_mask (x m : Nat) (state : Bool) (hx : x < 2 ^ 32) (hm : m < 2 ^ 32)
    (i : Nat) :
    (if state then x ||| m else x &&& (2 ^ 32 - 1 - m)).testBit i =
      if m.testBit i then state else x.testBit i := by
  cases state with
  | true =>
    simp only [if_true, Nat.testBit_or]
    cases m.testBit i <;> simp
  | false =>
    have hsub : 2 ^ 32 - 1 - m = 2 ^ 32 - (m + 1) := by omega
    simp only [Bool.false_eq_true, if_false, Nat.testBit_and, hsub,
      Nat.testBit_two_pow_sub_succ hm]
    by_cases hi : i < 32
    · cases m.testBit i <;> simp [hi]
    · have hpow : 2 ^ 32 ≤ 2 ^ i := Nat.pow_le_pow_right (by decide) (by omega)
      have hxi : x.testBit i = false := Nat.testBit_lt_two_pow (by omega)
      have hmi : m.testBit i = false := Nat.testBit_lt_two_pow (by omega)
      simp [hxi, hmi]

/-- C23: on 32-bit settings, `UpdateCameraMode (mode, state)` leaves every bit
of `world_camera_settings_.mode` outside `mode` as it was and gives the bits of
`mode` the value `state`, without changing `cameras`; `UpdateCameraId` does the
same on `cameras` without changing `mode`; and calling either twice with the
same arguments gives the state of calling it once. -/
theorem settings_bitmask_update (app : WorldCameraApp) (mode : MLWorldCameraFrameType)
    (id : MLWorldCameraIdentifier) (state : Bool)
    (hm : app.world_camera_settings_.mode < 2 ^ 32)
    (hc : app.world_camera_settings_.cameras < 2 ^ 32) :
    (∀ i, (UpdateCameraMode app mode state).world_camera_settings_.mode.testBit i =
      if mode.toNat.testBit i then state else app.world_camera_settings_.mode.testBit i) ∧
    (UpdateCameraMode app mode state).world_camera_settings_.cameras =
      app.world_camera_settings_.cameras ∧
    (∀ i, (UpdateCameraId app id state).world_camera_settings_.cameras.testBit i =
      if id.toNat.testBit i then state else app.world_camera_settings_.cameras.testBit i) ∧
    (UpdateCameraId app id state).world_camera_settings_.mode =
      app.world_camera_settings_.mode ∧
    UpdateCameraMode (UpdateCameraMode app mode state) mode state =
      UpdateCameraMode app mode state ∧
    UpdateCameraId (UpdateCameraId app id state) id state = UpdateCameraId app id state := by
  have hmode : mode.toNat < 2 ^ 32 := by cases mode <;> decide
  have hid : id.toNat < 2 ^ 32 := by cases id <;> decide
  refine ⟨?_, ?_, ?_, ?_, ?_, ?_⟩
  · intro i
    rw [← testBit_update_mask _ _ state hm hmode i]
    cases state <;> rfl
  · cases state <;> rfl
  · intro i
    rw [← testBit_update_mask _ _ state hc hid i]
    cases state <;> rfl
  · cases state <;> rfl
  · cases state
    · simp only [UpdateCameraMode, Bool.false_eq_true, if_false, Nat.and_assoc, Nat.and_self]
      congr 1
      funext k
      split_ifs <;> rfl
    · simp only [UpdateCameraMode, if_true, Nat.or_assoc, Nat.or_self]
      congr 1
      funext k
      split_ifs <;> rfl
  · cases state
    · simp only [UpdateCameraId, Bool.false_eq_true, if_false, Nat.and_assoc, Nat.and_self]
      congr 1
      funext k
      split_ifs <;> rfl
    · simp only [UpdateCameraId, if_true, Nat.or_assoc, Nat.or_self]
      congr 1
      funext k
      split_ifs <;> rfl

/-- Witness of the settings update: clearing the low-exposure mode and the
left camera in the state after start. -/
theorem settings_bitmask_update_witness :
    (∀ i, (UpdateCameraMode startedApp .LowExposure false).world_camera_settings_.mode.testBit i =
      if MLWorldCameraFrameType.LowExposure.toNat.testBit i then false
      else startedApp.world_camera_settings_.mode.testBit i) ∧
    (UpdateCameraMode startedApp .LowExposure false).world_camera_settings_.cameras =
      startedApp.world_camera_settings_.cameras ∧
    (∀ i, (UpdateCameraId startedApp .Left false).world_camera_settings_.cameras.testBit i =
      if MLWorldCameraIdentifier.Left.toNat.testBit i then false
      else startedApp.world_camera_settings_.cameras.testBit i) ∧
    (UpdateCameraId startedApp .Left false).world_camera_settings_.mode =
      startedApp.world_camera_settings_.mode ∧
    UpdateCameraMode (UpdateCameraMode startedApp .LowExposure false) .LowExposure false =
      UpdateCameraMode startedApp .LowExposure false ∧
    UpdateCameraId (UpdateCameraId startedApp .Left false) .Left false =
      UpdateCameraId startedApp .Left false :=
  settings_bitmask_update startedApp .LowExposure .Left false (by decide) (by decide)

/-- Processing one frame keeps the stored frame numbers at `-1` or above. -/
theorem checkFrame_sentinel (app : WorldCameraApp) (k : CameraIdModePair) (n : Int)
    (h : SentinelOrFrame app) : SentinelOrFrame (checkFrame app k n) := by
  intro j v hv
  rw [checkFrame_last_frame_num] at hv
  split_ifs at hv with ha hb
  · rw [Map.touch_apply] at hv
    split_ifs at hv with hj
    · cases hk : app.last_frame_num_ k with
      | none =>
        rw [hk] at hv
        simp at hv
        omega
      | some w =>
        rw [hk] at hv
        simp at hv
        subst hv
        exact h k w hk
    · exact h j v hv
  · rw [Map.assign_apply] at hv
    split_ifs at hv with hj
    · simp at hv
      subst hv
      exact Or.inr ha.2
    · exact h j v hv
  · exact h j v hv

/-- Processing a batch keeps the stored frame numbers at `-1` or above. -/
theorem CheckDroppedFrames_sentinel (frames : List (CameraIdModePair × Int)) :
    ∀ app : WorldCameraApp, SentinelOrFrame app →
      SentinelOrFrame (CheckDroppedFrames app frames) := by
  induction frames with
  | nil => intro app h; exact h
  | cons e rest ih =>
    intro app h
    exact ih (checkFrame app e.1 e.2) (checkFrame_sentinel app e.1 e.2 h)

/-- The method `UpdateCameraMode` stores only the sentinel. -/
theorem UpdateCameraMode_sentinel (app : WorldCameraApp) (m : MLWorldCameraFrameType)
    (state : Bool) (h : SentinelOrFrame app) : SentinelOrFrame (UpdateCameraMode app m state) := by
  intro k v hv
  simp only [UpdateCameraMode] at hv
  split_ifs at hv
  · simp at hv
    omega
  · exact h k v hv

/-- The method `UpdateCameraId` stores only the sentinel. -/
theorem UpdateCameraId_sentinel (app : WorldCameraApp) (c : MLWorldCameraIdentifier)
    (state : Bool) (h : SentinelOrFrame app) : SentinelOrFrame (UpdateCameraId app c state) := by
  intro k v hv
  simp only [UpdateCameraId] at hv
  split_ifs at hv
  · simp at hv
    omega
  · exact h k v hv

/-- Every state that follows from the constructor by calls keeps the stored
frame numbers at `-1` or above. -/
theorem ReachableByCalls.sentinel {app : WorldCameraApp} (h : ReachableByCalls app) :
    SentinelOrFrame app := by
  induction h with
  | new settings =>
    intro j w hw
    simp only [WorldCameraApp.new] at hw
    split_ifs at hw
    simp at hw
    omega
  | onStart _ ih => exact ih
  | @onPause a _ ih =>
    intro j w hw
    simp only [OnPause] at hw
    cases hj : a.last_frame_num_ j with
    | none => rw [hj] at hw; simp at hw
    | some u =>
      rw [hj] at hw
      simp at hw
      omega
  | frames processed_cameras _ ih => exact CheckDroppedFrames_sentinel _ _ ih
  | updateCameraMode m state _ ih => exact UpdateCameraMode_sentinel _ m state ih
  | updateCameraId c state _ ih => exact UpdateCameraId_sentinel _ c state ih
  | @mode a m _ ih =>
    unfold toggleMode
    cases a.available_modes_ m with
    | none => exact ih
    | some b => exact UpdateCameraMode_sentinel _ m _ ih
  | @camera a c _ ih =>
    unfold toggleCamera
    cases a.available_cameras_ c with
    | none => exact ih
    | some b => exact UpdateCameraId_sentinel _ c _ ih

/-- C25: in every state that follows from the constructor by calls of
`OnStart`, `CheckDroppedFrames`, `OnPause`, `UpdateCameraMode`,
`UpdateCameraId` and checkbox clicks, every stored `last_frame_num_` is `-1`
or a non-negative frame number. -/
theorem sentinel_invariant (app : WorldCameraApp) (h : ReachableByCalls app)
    (k : CameraIdModePair) (v : Int) (hv : app.last_frame_num_ k = some v) :
    v = -1 ∨ 0 ≤ v :=
  ReachableByCalls.sentinel h k v hv

/-- Witness of the sentinel invariant: the left camera after frame 5, a pause
and a direct `UpdateCameraMode` call for the other mode. -/
theorem sentinel_invariant_witness : (-1 : Int) = -1 ∨ (0 : Int) ≤ -1 :=
  sentinel_invariant
    (UpdateCameraMode (OnPause (CheckDroppedFrames startedApp [(leftNormal, 5)]))
      .LowExposure true)
    (ReachableByCalls.updateCameraMode _ _
      (ReachableByCalls.onPause
        (ReachableByCalls.frames _ (ReachableByCalls.onStart (ReachableByCalls.new _)))))
    leftNormal (-1) (by decide)

/-- Processing a frame removes no key from `last_frame_num_`. -/
theorem checkFrame_present (app : WorldCameraApp) (k j : CameraIdModePair) (n : Int)
    (h : app.last_frame_num_ j ≠ none) : (checkFrame app k n).last_frame_num_ j ≠ none := by
  rw [checkFrame_last_frame_num]
  split_ifs
  · rw [Map.touch_apply]
    split_ifs <;> simp [h]
  · rw [Map.assign_apply]
    split_ifs <;> simp [h]
  · exact h

/-- Processing a batch removes no key from `last_frame_num_`. -/
theorem CheckDroppedFrames_present (frames : List (CameraIdModePair × Int))
    (j : CameraIdModePair) :
    ∀ app : WorldCameraApp, app.last_frame_num_ j ≠ none →
      (CheckDroppedFrames app frames).last_frame_num_ j ≠ none := by
  induction frames with
  | nil => intro app h; exact h
  | cons e rest ih =>
    intro app h
    exact ih (checkFrame app e.1 e.2) (checkFrame_present app e.1 j e.2 h)

/-- In every reachable state the six keys of the constructor have an entry in
`last_frame_num_`. -/
theorem Reachable.constructorKeys {app : WorldCameraApp} (h : Reachable app)
    (k : CameraIdModePair) (hk : constructorKey k) : app.last_frame_num_ k ≠ none := by
  induction h with
  | new settings =>
    obtain ⟨c, m⟩ := k
    obtain ⟨hc, hm⟩ := hk
    simp only at hc hm
    rcases hc with hc | hc | hc <;> rcases hm with hm | hm <;> subst hc <;> subst hm <;>
      simp [WorldCameraApp.new, Map.assign_apply, Map.empty]
  | onStart _ ih => exact ih
  | @onPause a _ ih =>
    simp only [OnPause]
    cases hv : a.last_frame_num_ k with
    | none => exact absurd hv ih
    | some w => simp
  | frames processed_cameras _ _ ih => exact CheckDroppedFrames_present _ k _ ih
  | @mode a m _ ih =>
    unfold toggleMode
    cases a.available_modes_ m with
    | none => exact ih
    | some b =>
      simp only [UpdateCameraMode]
      split_ifs
      · simp
      · exact ih
  | @camera a c _ ih =>
    unfold toggleCamera
    cases a.available_cameras_ c with
    | none => exact ih
    | some b =>
      simp only [UpdateCameraId]
      split_ifs
      · simp
      · exact ih

/-- A frame on an enabled key whose `last_frame_num_` is the sentinel primes
the key and leaves `dropped_frame_count` as it was. -/
theorem checkFrame_primes (app : WorldCameraApp) (k : CameraIdModePair) (n : Int)
    (hk : Enabled app k) (hn : 0 ≤ n) (hl : app.last_frame_num_ k = some (-1)) :
    (CheckDroppedFrames app [(k, n)]).dropped_frame_count = app.dropped_frame_count ∧
    (CheckDroppedFrames app [(k, n)]).last_frame_num_ k = some n := by
  have hread : app.last_frame_num_.read k 0 = -1 := by
    simp [Map.read, hl]
  rw [CheckDroppedFrames_single]
  constructor
  · rw [checkFrame_dropped_frame_count, if_neg (fun hh => hh.2.2.1 hread)]
  · exact checkFrame_last_self app k n hk hn

/-- C26: in a reachable state a key whose camera or mode is switched off has
no frame number recorded: its `last_frame_num_` entry is `-1` (for the six keys
of the constructor) or, for a key never created, absent.  Hence when a click
on its mode or camera checkbox enables the key, the next frame primes it and
`dropped_frame_count` stays as it was. -/
theorem disabled_pairs_stay_unprimed (app : WorldCameraApp) (h : Reachable app)
    (k : CameraIdModePair) (hk : ¬ Enabled app k) :
    (app.last_frame_num_ k = none ∨ app.last_frame_num_ k = some (-1)) ∧
    (constructorKey k → app.last_frame_num_ k = some (-1)) ∧
    (∀ n : Int, 0 ≤ n → Enabled (toggleMode app k.2) k →
      (CheckDroppedFrames (toggleMode app k.2) [(k, n)]).dropped_frame_count =
        app.dropped_frame_count ∧
      (CheckDroppedFrames (toggleMode app k.2) [(k, n)]).last_frame_num_ k = some n) ∧
    (∀ n : Int, 0 ≤ n → Enabled (toggleCamera app k.1) k →
      (CheckDroppedFrames (toggleCamera app k.1) [(k, n)]).dropped_frame_count =
        app.dropped_frame_count ∧
      (CheckDroppedFrames (toggleCamera app k.1) [(k, n)]).last_frame_num_ k = some n) := by
  have hun := Reachable.disabledUnprimed h k hk
  refine ⟨hun, ?_, ?_, ?_⟩
  · intro hck
    rcases hun with hnone | hneg
    · exact absurd hnone (Reachable.constructorKeys h k hck)
    · exact hneg
  · intro n hn hen
    have hdrop : (toggleMode app k.2).dropped_frame_count = app.dropped_frame_count := by
      unfold toggleMode
      cases app.available_modes_ k.2 <;> rfl
    have hlast : (toggleMode app k.2).last_frame_num_ k = some (-1) := by
      unfold toggleMode at hen ⊢
      cases hb : app.available_modes_ k.2 with
      | none =>
        rw [hb] at hen
        exact absurd hen hk
      | some b =>
        rw [hb] at hen
        simp only [UpdateCameraMode, Enabled] at hen ⊢
        rw [if_pos ⟨trivial, hen.1⟩]
    rw [← hdrop]
    exact checkFrame_primes _ k n hen hn hlast
  · intro n hn hen
    have hdrop : (toggleCamera app k.1).dropped_frame_count = app.dropped_frame_count := by
      unfold toggleCamera
      cases app.available_cameras_ k.1 <;> rfl
    have hlast : (toggleCamera app k.1).last_frame_num_ k = some (-1) := by
      unfold toggleCamera at hen ⊢
      cases hb : app.available_cameras_ k.1 with
      | none =>
        rw [hb] at hen
        exact absurd hen hk
      | some b =>
        rw [hb] at hen
        simp only [UpdateCameraId, Enabled] at hen ⊢
        rw [if_pos ⟨trivial, hen.2⟩]
    rw [← hdrop]
    exact checkFrame_primes _ k n hen hn hlast

/-- Witness of the unprimed disabled pairs: the left camera in normal-exposure
mode after the normal-exposure checkbox was cleared. -/
theorem disabled_pairs_stay_unprimed_witness :
    (normalOffApp.last_frame_num_ leftNormal = none ∨
      normalOffApp.last_frame_num_ leftNormal = some (-1)) ∧
    (constructorKey leftNormal → normalOffApp.last_frame_num_ leftNormal = some (-1)) ∧
    (∀ n : Int, 0 ≤ n → Enabled (toggleMode normalOffApp leftNormal.2) leftNormal →
      (CheckDroppedFrames (toggleMode normalOffApp leftNormal.2)
          [(leftNormal, n)]).dropped_frame_count = normalOffApp.dropped_frame_count ∧
      (CheckDroppedFrames (toggleMode normalOffApp leftNormal.2)
          [(leftNormal, n)]).last_frame_num_ leftNormal = some n) ∧
    (∀ n : Int, 0 ≤ n → Enabled (toggleCamera normalOffApp leftNormal.1) leftNormal →
      (CheckDroppedFrames (toggleCamera normalOffApp leftNormal.1)
          [(leftNormal, n)]).dropped_frame_count = normalOffApp.dropped_frame_count ∧
      (CheckDroppedFrames (toggleCamera normalOffApp leftNormal.1)
          [(leftNormal, n)]).last_frame_num_ leftNormal = some n) :=
  disabled_pairs_stay_unprimed normalOffApp
    (Reachable.mode _ (Reachable.onStart (Reachable.new _))) leftNormal (by decide)

/-- For a backward step `0 <= new < last <= INT64_MAX` the rollover gap is 1
exactly when `last = INT64_MAX` and `new = 0`, and at least 2 otherwise. -/
theorem wraparound_gap_eq_one_iff (last new : Int) (h0 : 0 ≤ new) (hlt : new < last)
    (hmax : last ≤ INT64_MAX) :
    (frame_num_diff last new = 1 ↔ (last = INT64_MAX ∧ new = 0)) ∧
    (¬ (last = INT64_MAX ∧ new = 0) → 2 ≤ frame_num_diff last new) := by
  have a1 : inInt64 (INT64_MAX - last) := by
    unfold inInt64 INT64_MIN; unfold INT64_MAX at hmax ⊢; omega
  have a2 : inInt64 (INT64_MAX - last + new) := by
    unfold inInt64 INT64_MIN; unfold INT64_MAX at hmax ⊢; omega
  have a3 : inInt64 (INT64_MAX - last + new + 1) := by
    unfold inInt64 INT64_MIN; unfold INT64_MAX at hmax ⊢; omega
  have hgap : frame_num_diff last new = INT64_MAX - last + new + 1 := by
    unfold frame_num_diff
    rw [if_pos hlt]
    simp only []
    rw [int64_of_inInt64 a1, int64_of_inInt64 a2, int64_of_inInt64 a3]
  rw [hgap]
  unfold INT64_MAX at hmax ⊢
  constructor
  · constructor
    · intro h; constructor <;> omega
    · intro h; omega
  · intro h
    by_contra hcon
    apply h
    constructor <;> omega

/-- C27: the out-of-order frame 9 after frame 10 has the rollover gap
`INT64_MAX`, which is at least 2, so the drop-accounting branch is taken; but
the sum stored in the `int` counter is `-1`, so `dropped_frame_count` goes from
0 down to `-1` instead of increasing.  Likewise frame 40 after frame 100 takes
the count from 0 to `-60`. -/
theorem backward_step_lowers_count :
    frame_num_diff 10 9 = INT64_MAX ∧ 2 ≤ frame_num_diff 10 9 ∧
    (CheckDroppedFrames startedApp [(rightLow, 10)]).dropped_frame_count rightLow = some 0 ∧
    (CheckDroppedFrames (CheckDroppedFrames startedApp [(rightLow, 10)])
      [(rightLow, 9)]).dropped_frame_count rightLow = some (-1) ∧
    2 ≤ frame_num_diff 100 40 ∧
    (CheckDroppedFrames (CheckDroppedFrames startedApp [(rightLow, 100)])
      [(rightLow, 40)]).dropped_frame_count rightLow = some (-60) := by
  decide

/-- The entries of a key after one frame depend only on the key's entries
before, on whether the key is enabled and on the frame number. -/
theorem checkFrame_agree (app1 app2 : WorldCameraApp) (k : CameraIdModePair) (n : Int)
    (hl : app1.last_frame_num_ k = app2.last_frame_num_ k)
    (hd : app1.dropped_frame_count k = app2.dropped_frame_count k)
    (he : Enabled app1 k ↔ Enabled app2 k) :
    (checkFrame app1 k n).last_frame_num_ k = (checkFrame app2 k n).last_frame_num_ k ∧
    (checkFrame app1 k n).dropped_frame_count k =
      (checkFrame app2 k n).dropped_frame_count k := by
  have hrl : app1.last_frame_num_.read k 0 = app2.last_frame_num_.read k 0 := by
    simp only [Map.read, hl]
  have hrd : app1.dropped_frame_count.read k 0 = app2.dropped_frame_count.read k 0 := by
    simp only [Map.read, hd]
  rw [checkFrame_last_frame_num, checkFrame_last_frame_num, checkFrame_dropped_frame_count,
    checkFrame_dropped_frame_count, hrl, hrd]
  by_cases h1 : Enabled app1 k
  · have h2 : Enabled app2 k := he.mp h1
    constructor
    · simp only [h1, h2, true_and]
      split_ifs <;> simp [Map.touch_apply, Map.assign_apply, hl]
    · simp only [h1, h2, true_and]
      split_ifs <;> simp [Map.assign_apply, hd]
  · have h2 : ¬ Enabled app2 k := fun h => h1 (he.mpr h)
    simp only [h1, h2, false_and, if_false]
    exact ⟨hl, hd⟩

/-- In a batch with one entry per key, the entries of a key of the batch after
the batch are those after its own frame alone. -/
theorem CheckDroppedFrames_at_key (frames : List (CameraIdModePair × Int))
    (k : CameraIdModePair) (n : Int) :
    ∀ app : WorldCameraApp, (frames.map Prod.fst).Nodup → (k, n) ∈ frames →
      (CheckDroppedFrames app frames).last_frame_num_ k = (checkFrame app k n).last_frame_num_ k ∧
      (CheckDroppedFrames app frames).dropped_frame_count k =
        (checkFrame app k n).dropped_frame_count k := by
  induction frames with
  | nil => intro app _ hmem; cases hmem
  | cons e rest ih =>
    intro app hnodup hmem
    simp only [List.map_cons, List.nodup_cons] at hnodup
    have hstep : CheckDroppedFrames app (e :: rest) =
        CheckDroppedFrames (checkFrame app e.1 e.2) rest := rfl
    rw [hstep]
    rcases List.mem_cons.mp hmem with heq | hrest
    · subst heq
      exact CheckDroppedFrames_of_not_mem rest k _ hnodup.1
    · have hne : k ≠ e.1 := by
        intro hke
        apply hnodup.1
        rw [← hke]
        exact List.mem_map_of_mem Prod.fst hrest
      have hrec := ih (checkFrame app e.1 e.2) hnodup.2 hrest
      have hag := checkFrame_agree (checkFrame app e.1 e.2) app k n
        (checkFrame_last_of_ne app e.1 k e.2 hne) (checkFrame_dropped_of_ne app e.1 k e.2 hne)
        (checkFrame_enabled app e.1 k e.2)
      exact ⟨hrec.1.trans hag.1, hrec.2.trans hag.2⟩

/-- C28: a batch changes the `last_frame_num_` and `dropped_frame_count`
entries only of the keys it contains; and for a key of the batch, two runs
(any two states, any two batches with one entry per key) that agree on the
key's previous two entries, on its frame number and on whether the key is
enabled give the key the same two entries. -/
theorem per_key_independence (frames : List (CameraIdModePair × Int)) (k : CameraIdModePair) :
    (∀ app : WorldCameraApp, k ∉ frames.map Prod.fst →
      (CheckDroppedFrames app frames).last_frame_num_ k = app.last_frame_num_ k ∧
      (CheckDroppedFrames app frames).dropped_frame_count k = app.dropped_frame_count k) ∧
    (∀ (app1 app2 : WorldCameraApp) (frames2 : List (CameraIdModePair × Int)) (n : Int),
      (frames.map Prod.fst).Nodup → (frames2.map Prod.fst).Nodup →
      (k, n) ∈ frames → (k, n) ∈ frames2 →
      app1.last_frame_num_ k = app2.last_frame_num_ k →
      app1.dropped_frame_count k = app2.dropped_frame_count k →
      (Enabled app1 k ↔ Enabled app2 k) →
      (CheckDroppedFrames app1 frames).last_frame_num_ k =
        (CheckDroppedFrames app2 frames2).last_frame_num_ k ∧
      (CheckDroppedFrames app1 frames).dropped_frame_count k =
        (CheckDroppedFrames app2 frames2).dropped_frame_count k) := by
  refine ⟨fun app hk => CheckDroppedFrames_of_not_mem frames k app hk, ?_⟩
  intro app1 app2 frames2 n hn1 hn2 hm1 hm2 hl hd he
  have r1 := CheckDroppedFrames_at_key frames k n app1 hn1 hm1
  have r2 := CheckDroppedFrames_at_key frames2 k n app2 hn2 hm2
  have hag := checkFrame_agree app1 app2 k n hl hd he
  exact ⟨r1.1.trans (hag.1.trans r2.1.symm), r1.2.trans (hag.2.trans r2.2.symm)⟩

end WorldCamera
